import Mathlib

/-!
# Hurrican texture system (`DX8Texture.cpp`)

A shallow embedding of `TexturesystemClass` (the reference-counted texture
cache of `src/Hurrican/src/DX8Texture.cpp`, `PLATFORM_DIRECTX` build) and the
properties of its load / unload / shutdown life cycle.

Conventions of the embedding:

* `std::vector<TextureHandle>` is a `List TextureHandle`, `std::map` an
  association list that is only read with `mapFind` and written with `mapSet`.
* `int16_t` values are integers produced by `toInt16` (two's complement
  truncation); `int` and `unsigned int`, whose width the source does not fix,
  are unbounded.
* `double` values are only stored, copied and compared by the cache; they are
  carried as rationals and no arithmetic is done on them here.
* An access `_loaded_textures[idx]` outside the vector is undefined behaviour:
  the operation stops with `Except.error`.
* The behaviour of the file loader during a call is an argument of `LoadTexture`, so
  every statement about the cache holds for each behaviour the loader can show.
  `LoadTextureFromFile` and `DX8_LoadTexture` are embedded on their own (build with
  `USE_UNRARLIB`); the answers of the file system, the archive library and Direct3D are
  arguments. Undefined behaviour there gives `none`.
* A scale factor file is the list of triples its extraction loop yields.
* `loadCalls`, `unloadCalls` and `FileLoad.loaders` are ghost logs of the collaborator
  invocations.
-/

namespace Hurrican

/-! ## Data model -/

/-- Modelled from the spec: `TextureHandle` is declared in `DX8Texture.hpp`, which is
not part of the sources at hand. "gpuResource: opaque backend-owned resource",
"instanceCount", "scaleX, scaleY: floating-point scale factors (default 1.0, 1.0)".
`tex = none` is the null texture pointer. -/
structure TextureHandle where
  tex : Option Nat
  instances : Int
  npot_scalex : Rat
  npot_scaley : Rat
deriving DecidableEq

/-- Modelled from the spec: the default constructor of `TextureHandle` (header
missing), "a new empty TextureHandle": no resource, count 0, scale 1.0. -/
def TextureHandle.new : TextureHandle :=
  { tex := none, instances := 0, npot_scalex := 1, npot_scaley := 1 }

/-- The members of `TexturesystemClass` read or written by the code, the global
`GameRunning`, and the two ghost logs of collaborator calls: file names handed to
`LoadTextureFromFile` and slot indices handed to `DX8_UnloadTexture`. -/
structure TexturesystemClass where
  _texture_map : List (String × Int)
  _loaded_textures : List TextureHandle
  _scalefactors_map : List (String × (Rat × Rat))
  GameRunning : Bool
  loadCalls : List String
  unloadCalls : List Nat
deriving DecidableEq

/-- The cache right after construction: no slot, no name, no override. -/
def TexturesystemClass.empty : TexturesystemClass :=
  { _texture_map := [], _loaded_textures := [], _scalefactors_map := [],
    GameRunning := true, loadCalls := [], unloadCalls := [] }

/-- Lookup in a `std::map` (`find`): the value stored for `k`, if any. -/
def mapFind {β : Type} : List (String × β) → String → Option β
  | [], _ => none
  | (k', v) :: rest, k => if k' = k then some v else mapFind rest k

/-- Assignment `m[k] = v` on a `std::map`: overwrite the entry of `k` or add one. -/
def mapSet {β : Type} : List (String × β) → String → β → List (String × β)
  | [], k, v => [(k, v)]
  | (k', v') :: rest, k, v =>
      if k' = k then (k', v) :: rest else (k', v') :: mapSet rest k v

/-- Conversion of an unsigned size to `int16_t`: keep the low 16 bits, read them
as two's complement. -/
def toInt16 (n : Nat) : Int :=
  if n % 65536 < 32768 then ((n % 65536 : Nat) : Int) else ((n % 65536 : Nat) : Int) - 65536

/-- What one invocation of `LoadTextureFromFile(filename, th)` leaves behind: the
returned flag, the handle it wrote through the reference, and `GameRunning`. -/
structure LoadResult where
  success : Bool
  th : TextureHandle
  GameRunning : Bool

/-- Behaviour of `LoadTextureFromFile` at one call: from the file name, the handle
and `GameRunning` before the call to the result. -/
abbrev Loader := String → TextureHandle → Bool → LoadResult

/-- Modelled from the spec: the macro `SafeRelease` is defined in a header that is
not part of the sources at hand; "free the GPU resource and clear gpuResource". -/
def SafeRelease (_tex : Option Nat) : Option Nat := none

/-- Function `DX8_UnloadTexture` (lines 368-372): release the texture, count 0. -/
def DX8_UnloadTexture (th : TextureHandle) : TextureHandle :=
  { th with tex := SafeRelease th.tex, instances := 0 }

/-- Modelled from the spec: `ReplaceAll` is defined outside the sources at hand;
every occurrence of `pat` is replaced by `rep`, scanning left to right. The first
argument bounds the number of scan steps. -/
def ReplaceAll.scan (pat rep : List Char) : Nat → List Char → List Char
  | 0, s => s
  | _ + 1, [] => []
  | fuel + 1, c :: cs =>
      if pat ≠ [] ∧ pat.isPrefixOf (c :: cs) then
        rep ++ ReplaceAll.scan pat rep fuel ((c :: cs).drop pat.length)
      else c :: ReplaceAll.scan pat rep fuel cs

/-- Modelled from the spec: `ReplaceAll(str, from, to)` (defined outside the sources
at hand), used to strip the extension from a file name. -/
def ReplaceAll (str pat rep : String) : String :=
  String.mk (ReplaceAll.scan pat.data rep.data (str.data.length + 1) str.data)

/-- The reason an operation has no defined result: `_loaded_textures[idx]` was
evaluated with `idx` outside the vector; `state` is the cache at that moment. -/
structure Fault where
  idx : Int
  state : TexturesystemClass

/-! ## Operations -/

/-- Function `UnloadTexture` (lines 125-143): inside the vector and with a positive
count, decrement; at 0 hand the handle to `DX8_UnloadTexture`. -/
def UnloadTexture (idx : Int) (s : TexturesystemClass) : TexturesystemClass :=
  if 0 ≤ idx ∧ idx < (s._loaded_textures.length : Int) then
    match s._loaded_textures[idx.toNat]? with
    | some th =>
        if th.instances > 0 then
          let th1 := { th with instances := th.instances - 1 }
          if th1.instances = 0 then
            { s with
              _loaded_textures := s._loaded_textures.set idx.toNat (DX8_UnloadTexture th1)
              unloadCalls := s.unloadCalls ++ [idx.toNat] }
          else
            { s with _loaded_textures := s._loaded_textures.set idx.toNat th1 }
        else s
    | none => s
  else s

/-- The `for` loop of `Exit` (lines 43-50) from index `i` on; the first argument
bounds the number of iterations. -/
def Exit.loop : Nat → Nat → TexturesystemClass → TexturesystemClass
  | 0, _, s => s
  | fuel + 1, i, s =>
      if i < s._loaded_textures.length then
        match s._loaded_textures[i]? with
        | some th =>
            if th.instances > 0 then
              Exit.loop fuel (i + 1)
                (UnloadTexture (i : Int)
                  { s with _loaded_textures :=
                      s._loaded_textures.set i { th with instances := 1 } })
            else Exit.loop fuel (i + 1) s
        | none => Exit.loop fuel (i + 1) s
      else s

/-- Function `Exit` (lines 35-51); its loop runs at most once per slot. -/
def Exit (s : TexturesystemClass) : TexturesystemClass :=
  Exit.loop s._loaded_textures.length 0 s

/-- Lines 61-86 of `LoadTexture`: find the slot index of `filename`, or append a
fresh slot and record its (truncated) index. -/
def LoadTexture.resolve (filename : String) (s : TexturesystemClass) :
    Int × TexturesystemClass :=
  let idx : Int :=
    match mapFind s._texture_map filename with
    | some v => v
    | none => -1
  if idx = -1 then
    let slots := s._loaded_textures ++ [TextureHandle.new]
    let idx1 := toInt16 (slots.length - 1)
    (idx1, { s with _loaded_textures := slots
                    _texture_map := mapSet s._texture_map filename idx1 })
  else (idx, s)

/-- Lines 90-106 of `LoadTexture` on the resolved handle: count one more user of a
resident texture, or call the loader. Gives the handle, `GameRunning` and the
loader log afterwards. -/
def LoadTexture.acquire (LoadTextureFromFile : Loader) (filename : String)
    (th : TextureHandle) (s : TexturesystemClass) : TextureHandle × Bool × List String :=
  if th.instances > 0 then
    ({ th with instances := th.instances + 1 }, s.GameRunning, s.loadCalls)
  else
    let r := LoadTextureFromFile filename th s.GameRunning
    if !r.success then
      ({ r.th with instances := 0 }, false, s.loadCalls ++ [filename])
    else
      ({ r.th with instances := 1 }, r.GameRunning, s.loadCalls ++ [filename])

/-- Lines 108-120 of `LoadTexture`: external scale factors, when there are some for
the file name without its extension. -/
def LoadTexture.override (filename : String) (th : TextureHandle)
    (s : TexturesystemClass) : TextureHandle :=
  if s._scalefactors_map ≠ [] then
    match mapFind s._scalefactors_map (ReplaceAll filename ".png" "") with
    | some p => { th with npot_scalex := p.1, npot_scaley := p.2 }
    | none => th
  else th

/-- Function `LoadTexture` (lines 56-123), release build (`_DEBUG` undefined). The result is
the returned index and the cache afterwards, or the fault of line 88. -/
def LoadTexture (LoadTextureFromFile : Loader) (filename : String)
    (s : TexturesystemClass) : Except Fault (Int × TexturesystemClass) :=
  if filename = "" then .ok (-1, s)
  else
    let (idx, s1) := LoadTexture.resolve filename s
    if 0 ≤ idx ∧ idx < (s1._loaded_textures.length : Int) then
      match s1._loaded_textures[idx.toNat]? with
      | some th =>
          let (th1, running, log) := LoadTexture.acquire LoadTextureFromFile filename th s1
          let th2 := LoadTexture.override filename th1 s1
          .ok (idx, { s1 with _loaded_textures := s1._loaded_textures.set idx.toNat th2
                              GameRunning := running
                              loadCalls := log })
      | none => .error { idx := idx, state := s1 }
    else .error { idx := idx, state := s1 }

/-! ## Call sequences -/

/-- One call of the public interface; a `LoadTexture` call carries the behaviour the
file loader shows during it. -/
inductive Call where
  | LoadTexture (filename : String) (LoadTextureFromFile : Loader)
  | UnloadTexture (idx : Int)
  | Exit

/-- The cache after one call, or the fault that stopped it. -/
def step (s : TexturesystemClass) : Call → Except Fault TexturesystemClass
  | .LoadTexture filename ld =>
      match LoadTexture ld filename s with
      | .ok r => .ok r.2
      | .error f => .error f
  | .UnloadTexture idx => .ok (UnloadTexture idx s)
  | .Exit => .ok (Exit s)

/-- The cache after a sequence of calls, or the first fault. -/
def run (s : TexturesystemClass) : List Call → Except Fault TexturesystemClass
  | [] => .ok s
  | c :: cs =>
      match step s c with
      | .ok s1 => run s1 cs
      | .error f => .error f

/-- The empty cache with the override table that was read before first use. -/
def TexturesystemClass.withOverrides (overrides : List (String × (Rat × Rat))) :
    TexturesystemClass :=
  { TexturesystemClass.empty with _scalefactors_map := overrides }

/-- States the cache can be in: results of call sequences from the empty cache, whatever
override table it was given before first use (none in particular). -/
def Reachable (s : TexturesystemClass) : Prop :=
  ∃ (overrides : List (String × (Rat × Rat))) (cs : List Call),
    run (TexturesystemClass.withOverrides overrides) cs = .ok s

/-- Whether a call is a `LoadTexture` call. -/
def Call.isLoad : Call → Bool
  | .LoadTexture _ _ => true
  | _ => false

/-- A loader that always succeeds and attaches resource 7. -/
def loaderOk : Loader := fun _ th g =>
  { success := true, th := { th with tex := some 7 }, GameRunning := g }

/-- A loader that always fails and leaves the handle without resource. -/
def loaderFail : Loader := fun _ th _ =>
  { success := false, th := { th with tex := none }, GameRunning := false }

/-- The slot `Exit` leaves for `th`: a loaded texture is released, count 0 and no
resource; a slot that holds no instance is left alone. -/
def Exit.reset (th : TextureHandle) : TextureHandle :=
  if th.instances > 0 then { th with tex := none, instances := 0 } else th

/-- Indices, counted from `i`, of the handles in a list that hold an instance. -/
def Exit.live : Nat → List TextureHandle → List Nat
  | _, [] => []
  | i, th :: rest =>
      if th.instances > 0 then i :: Exit.live (i + 1) rest else Exit.live (i + 1) rest

/-- Three slots with 0, 2 and 5 instances, as left by a failed load of "a", two loads
of "b" and five loads of "c". -/
def slots025 : TexturesystemClass :=
  { TexturesystemClass.empty with
    GameRunning := false
    loadCalls := ["a", "b", "c"]
    _texture_map := [("a", 0), ("b", 1), ("c", 2)]
    _loaded_textures :=
      [ { tex := none, instances := 0, npot_scalex := 1, npot_scaley := 1 },
        { tex := some 7, instances := 2, npot_scalex := 1, npot_scaley := 1 },
        { tex := some 7, instances := 5, npot_scalex := 1, npot_scaley := 1 } ] }

/-- The cache after lines 88-122 of `LoadTexture` ran on slot `i` of `s`, which held
`th`: the handle after the reference count or the loader and the scale override is
written back, with `GameRunning` and the loader log. -/
def LoadTexture.commit (ld : Loader) (filename : String) (i : Nat) (th : TextureHandle)
    (s : TexturesystemClass) : TexturesystemClass :=
  { s with
    _loaded_textures := s._loaded_textures.set i
      (LoadTexture.override filename (LoadTexture.acquire ld filename th s).1 s)
    GameRunning := (LoadTexture.acquire ld filename th s).2.1
    loadCalls := (LoadTexture.acquire ld filename th s).2.2 }

/-- What every call keeps true of the cache: each index in the name map names a slot,
at most 32768 slots exist (the indices an `int16_t` can hold), no two names share an
index, and no count is negative. -/
structure WellFormed (s : TexturesystemClass) : Prop where
  bounds : ∀ k i, mapFind s._texture_map k = some i →
    0 ≤ i ∧ i < (s._loaded_textures.length : Int)
  capacity : s._loaded_textures.length ≤ 32768
  inj : ∀ a b i, mapFind s._texture_map a = some i →
    mapFind s._texture_map b = some i → a = b
  nonneg : ∀ th ∈ s._loaded_textures, 0 ≤ th.instances

/-- Calls that build `slots025` from the empty cache: a failed load of "a", two loads
of "b" and five of "c". -/
def calls025 : List Call :=
  [ .LoadTexture "a" loaderFail,
    .LoadTexture "b" loaderOk, .LoadTexture "b" loaderOk,
    .LoadTexture "c" loaderOk, .LoadTexture "c" loaderOk, .LoadTexture "c" loaderOk,
    .LoadTexture "c" loaderOk, .LoadTexture "c" loaderOk ]

/-- Calls that release "c" fully, shut down, and then load "d" and "c" again. -/
def callsAfter025 : List Call :=
  [ .UnloadTexture 2, .UnloadTexture 2, .UnloadTexture 2, .UnloadTexture 2, .UnloadTexture 2,
    .Exit, .LoadTexture "d" loaderOk, .LoadTexture "c" loaderOk ]

/-- The contract assumed of the loader: after a call the handle has a resource exactly
when the call reported success. -/
def Loader.Faithful (ld : Loader) : Prop :=
  ∀ (filename : String) (th : TextureHandle) (running : Bool),
    (ld filename th running).th.tex ≠ none ↔ (ld filename th running).success = true

/-- A call whose loader, if it has one, keeps the contract. -/
def Call.Faithful : Call → Prop
  | .LoadTexture _ ld => Loader.Faithful ld
  | _ => True

/-- Every slot has count 0 exactly when it has no resource. -/
def Consistent (s : TexturesystemClass) : Prop :=
  ∀ th ∈ s._loaded_textures, (th.instances = 0 ↔ th.tex = none)

/-- The `i`-th of a family of pairwise different non-empty file names: `i + 1` letters. -/
def nameOf (i : Nat) : String := String.mk (List.replicate (i + 1) 'a')

/-- Loading the first `n` names of the family, each load succeeding. -/
def fillCalls (n : Nat) : List Call :=
  (List.range n).map fun i => Call.LoadTexture (nameOf i) loaderOk

/-- The cache that holds the first `n` names of the family, one instance each. -/
def filled (n : Nat) : TexturesystemClass :=
  { _texture_map := (List.range n).map fun i => (nameOf i, (i : Int))
    _loaded_textures :=
      List.replicate n { tex := some 7, instances := 1, npot_scalex := 1, npot_scaley := 1 }
    _scalefactors_map := []
    GameRunning := true
    loadCalls := (List.range n).map nameOf
    unloadCalls := [] }

/-- Whether a `LoadTexture(filename)` call in cache `s` would be made while the slot of
the name has `instances == 0`, or while the name has no slot yet. -/
def coldFor (filename : String) (s : TexturesystemClass) : Bool :=
  match mapFind s._texture_map filename with
  | none => true
  | some i =>
      if 0 ≤ i then
        match s._loaded_textures[i.toNat]? with
        | some th => decide (th.instances = 0)
        | none => false
      else false

/-- One for a `LoadTexture(filename)` call made in `s` while the slot of the name has
`instances == 0` or does not exist yet, 0 for every other call. -/
def coldCall (filename : String) (s : TexturesystemClass) : Call → Nat
  | .LoadTexture f _ => if f = filename ∧ coldFor filename s = true then 1 else 0
  | _ => 0

/-- The number of `LoadTexture(filename)` calls in a sequence run from `s` that are made
while the slot of the name has `instances == 0` or does not exist yet. -/
def coldCalls (filename : String) : TexturesystemClass → List Call → Nat
  | _, [] => 0
  | s, c :: cs =>
      coldCall filename s c +
      (match step s c with
        | .ok s1 => coldCalls filename s1 cs
        | .error _ => 0)

/-! ## Scale factor files -/

/-- One record `<name> <xscale> <yscale>` as the extraction
`file >> name >> xscale >> yscale` of line 155 yields it. -/
structure Triple where
  name : String
  xscale : Rat
  yscale : Rat
deriving DecidableEq

/-- The `while` loop of `ReadScaleFactorsFile` (lines 155-162) over the triples the stream
yields until an extraction fails: a triple that passes the test of line 156 is assigned
to `_scalefactors_map[name]`. -/
def ReadScaleFactorsFile.loop :
    List Triple → List (String × (Rat × Rat)) → List (String × (Rat × Rat))
  | [], m => m
  | t :: rest, m =>
      if t.name ≠ "" ∧ t.xscale ≠ 0 ∧ t.yscale ≠ 0 then
        ReadScaleFactorsFile.loop rest (mapSet m t.name (t.xscale, t.yscale))
      else ReadScaleFactorsFile.loop rest m

/-- Function `ReadScaleFactorsFile` (lines 145-165). The file is `none` when the stream
cannot be opened, otherwise the triples it yields. -/
def ReadScaleFactorsFile (file : Option (List Triple)) (s : TexturesystemClass) :
    TexturesystemClass :=
  match file with
  | none => s
  | some triples =>
      { s with
        _scalefactors_map := ReadScaleFactorsFile.loop triples s._scalefactors_map }

/-- A scale factor file as `ReadScaleFactorsFiles` meets it: what `FileExists` answers for
its path, and the stream behind it. -/
structure ScaleFile where
  present : Bool
  stream : Option (List Triple)

/-- Function `ReadScaleFactorsFiles` (lines 167-196): the file of the base directory, then
the one of `etc1/` when built with `USE_ETC1`, then the one of `pvr/` when built with
`USE_PVRTC`; each is read when `FileExists` says so. -/
def ReadScaleFactorsFiles (USE_ETC1 USE_PVRTC : Bool) (base etc1 pvr : ScaleFile)
    (s : TexturesystemClass) : TexturesystemClass :=
  let s1 := if base.present then ReadScaleFactorsFile base.stream s else s
  let s2 :=
    if USE_ETC1 then
      if etc1.present then ReadScaleFactorsFile etc1.stream s1 else s1
    else s1
  if USE_PVRTC then
    if pvr.present then ReadScaleFactorsFile pvr.stream s2 else s2
  else s2

/-- The pair of the last triple of a source that names `name` and passes the test of
line 156, if there is one. -/
def lastAccepted (name : String) : List Triple → Option (Rat × Rat)
  | [] => none
  | t :: rest =>
      match lastAccepted name rest with
      | some p => some p
      | none =>
          if t.name = name ∧ t.name ≠ "" ∧ t.xscale ≠ 0 ∧ t.yscale ≠ 0 then
            some (t.xscale, t.yscale)
          else none

/-- The cache that holds "a.png" once, loaded before any scale factor file was read. -/
def oneTexture : TexturesystemClass :=
  { TexturesystemClass.empty with
    _texture_map := [("a.png", 0)]
    _loaded_textures :=
      [ { tex := some 7, instances := 1, npot_scalex := 1, npot_scaley := 1 } ]
    loadCalls := ["a.png"] }

/-! ## The DirectX loader -/

/-- What `D3DXCreateTextureFromFileInMemoryEx` / `D3DXCreateTextureFromFileEx` answer:
`D3D_OK` together with the texture written to `th.tex`, or a failure code together with
whatever the call left in `th.tex`. -/
inductive CreateResult where
  | ok (tex : Nat)
  | failed (left : Option Nat)

/-- Answers of Direct3D during one `DX8_LoadTexture` call: the creation of the texture,
the size `GetLevelDesc` reports for it, whether `D3DXGetimgInfoFromFile(InMemory)`
returned `D3D_OK`, and the image size it reports. -/
structure D3DAnswers where
  create : CreateResult
  tex_Width : Nat
  tex_Height : Nat
  info_ok : Bool
  img_Width : Nat
  img_Height : Nat

/-- Function `DX8_LoadTexture` (lines 270-366). `fileExists` is the answer of
`FileExists(fullpath)`, `buf = none` the null pointer. The quotients of lines 359-360 are
taken exactly. -/
def DX8_LoadTexture (fileExists : Bool) (d : D3DAnswers) (_path filename : String)
    (buf : Option Nat) (buf_size : Nat) (th : TextureHandle) (running : Bool) : LoadResult :=
  let load_from_memory : Bool := decide (buf_size > 0)
  if load_from_memory = true ∧ buf = none then
    { success := false, th := th, GameRunning := false }
  else if filename = "" then
    { success := false, th := th, GameRunning := false }
  else if load_from_memory = false ∧ fileExists = false then
    { success := false, th := th, GameRunning := running }
  else
    match d.create with
    | .failed left =>
        { success := false, th := { th with tex := left }, GameRunning := false }
    | .ok tex =>
        if d.info_ok = false ∨ d.tex_Width = 0 ∨ d.tex_Height = 0 ∨
            d.img_Width = 0 ∨ d.img_Height = 0 then
          { success := true
            th := { th with tex := some tex, instances := 1 }
            GameRunning := false }
        else
          { success := true
            th :=
              { th with
                tex := some tex
                npot_scalex := (d.img_Width : Rat) / (d.tex_Width : Rat)
                npot_scaley := (d.img_Height : Rat) / (d.tex_Height : Rat)
                instances := 1 }
            GameRunning := running }

/-- The globals read by one `LoadTextureFromFile` call and the answers of the environment
during it: `FileExists` for the archive, the return value of `urarlib_get` with the buffer
and size it delivered, `FileExists` for the path on disk, and the answers of Direct3D to
a load from memory and to a load from disk. -/
structure World where
  g_storage_ext : String
  RunOwnLevelList : Bool
  OwnLevelList : String
  rarExists : Bool
  urarlib_get : Bool
  buf_data : Option Nat
  buf_size : Nat
  memory : D3DAnswers
  fileExists : Bool
  disk : D3DAnswers

/-- The two ways `LoadTextureFromFile` calls the platform loader. -/
inductive LoadSource where
  | memory
  | disk
deriving DecidableEq

/-- What a `LoadTextureFromFile` call leaves behind, with the ghost log of its calls of
the platform loader. -/
structure FileLoad where
  success : Bool
  th : TextureHandle
  GameRunning : Bool
  loaders : List LoadSource

/-- C++ semantics: `NULL` passed for a parameter of type `const std::string &` builds a
`std::string` from the null pointer, which has no defined result. -/
def stringFromNull : Option String := none

/-- Lines 205-213 of `LoadTextureFromFile`: the directory of the textures on disk. -/
def LoadTextureFromFile.path (w : World) : String :=
  (if w.RunOwnLevelList = true then w.g_storage_ext ++ "/levels/" ++ w.OwnLevelList
    else w.g_storage_ext) ++ "/data/textures"

/-- Lines 252-262 of `LoadTextureFromFile`, the label `loaded`. -/
def LoadTextureFromFile.loaded (success : Bool) (th : TextureHandle) (running : Bool)
    (loaders : List LoadSource) : FileLoad :=
  { success := success
    th := th
    GameRunning := if success = false then false else running
    loaders := loaders }

/-- Function `LoadTextureFromFile` (lines 198-263), built with `USE_UNRARLIB` and
`PLATFORM_DIRECTX`. The result is `none` where the call has no defined behaviour. -/
def LoadTextureFromFile (w : World) (filename : String) (th : TextureHandle)
    (running : Bool) : Option FileLoad :=
  if filename = "" then
    some { success := false, th := th, GameRunning := running, loaders := [] }
  else
    let path := LoadTextureFromFile.path w
    if w.rarExists = true ∧ w.urarlib_get = true ∧ w.buf_data ≠ none then
      match stringFromNull with
      | none => none
      | some null =>
          let r := DX8_LoadTexture w.fileExists w.memory null null w.buf_data w.buf_size
            th running
          if r.success = true then
            some (LoadTextureFromFile.loaded true r.th r.GameRunning [.memory])
          else
            let r2 := DX8_LoadTexture w.fileExists w.disk path filename none 0
              r.th r.GameRunning
            some (LoadTextureFromFile.loaded r2.success r2.th r2.GameRunning
              [.memory, .disk])
    else
      let r2 := DX8_LoadTexture w.fileExists w.disk path filename none 0 th running
      some (LoadTextureFromFile.loaded r2.success r2.th r2.GameRunning [.disk])

/-- Direct3D creates texture 9 but cannot tell the image size. -/
def probeFails : D3DAnswers :=
  { create := .ok 9, tex_Width := 64, tex_Height := 64, info_ok := false,
    img_Width := 0, img_Height := 0 }

/-- Direct3D creates texture 9 of 64 x 64 for an image of 48 x 32. -/
def probeWorks : D3DAnswers :=
  { create := .ok 9, tex_Width := 64, tex_Height := 64, info_ok := true,
    img_Width := 48, img_Height := 32 }

/-- A slot that carried the factors 2 and 3 while it was loaded and is empty again. -/
def usedHandle : TextureHandle :=
  { tex := none, instances := 0, npot_scalex := 2, npot_scaley := 3 }

/-- The archive holds the file and the disk does too. -/
def archiveWorld : World :=
  { g_storage_ext := ".", RunOwnLevelList := false, OwnLevelList := "",
    rarExists := true, urarlib_get := true, buf_data := some 1, buf_size := 100,
    memory := probeWorks, fileExists := true, disk := probeWorks }

/-- No archive; the file is on disk. -/
def diskWorld : World :=
  { g_storage_ext := ".", RunOwnLevelList := false, OwnLevelList := "",
    rarExists := false, urarlib_get := false, buf_data := none, buf_size := 0,
    memory := probeWorks, fileExists := true, disk := probeWorks }

/-! ## Maps -/

theorem mapFind_mapSet_same {β : Type} (m : List (String × β)) (k : String) (v : β) :
    mapFind (mapSet m k v) k = some v := by
  induction m with
  | nil => simp [mapSet, mapFind]
  | cons e rest ih =>
      obtain ⟨k', v'⟩ := e
      by_cases h : k' = k
      · simp [mapSet, mapFind, h]
      · simp [mapSet, mapFind, h, ih]

theorem mapFind_mapSet_other {β : Type} (m : List (String × β)) (k k2 : String) (v : β)
    (hne : k2 ≠ k) : mapFind (mapSet m k v) k2 = mapFind m k2 := by
  induction m with
  | nil =>
      have : ¬ k = k2 := fun h => hne h.symm
      simp [mapSet, mapFind, this]
  | cons e rest ih =>
      obtain ⟨k', v'⟩ := e
      by_cases h : k' = k
      · subst h
        have : ¬ k' = k2 := fun h => hne h.symm
        simp [mapSet, mapFind, this]
      · by_cases h2 : k' = k2
        · simp [mapSet, mapFind, h, h2]
          simp [← h2, h, mapFind]
        · simp [mapSet, mapFind, h, h2, ih]

/-! ## `UnloadTexture` case by case -/

theorem UnloadTexture_out_of_range (idx : Int) (s : TexturesystemClass)
    (h : idx < 0 ∨ (s._loaded_textures.length : Int) ≤ idx) : UnloadTexture idx s = s := by
  unfold UnloadTexture
  have : ¬ (0 ≤ idx ∧ idx < (s._loaded_textures.length : Int)) := by omega
  simp [this]

theorem UnloadTexture_not_loaded (idx : Int) (s : TexturesystemClass) (th : TextureHandle)
    (hth : s._loaded_textures[idx.toNat]? = some th) (h0 : th.instances ≤ 0) :
    UnloadTexture idx s = s := by
  unfold UnloadTexture
  have : ¬ th.instances > 0 := by omega
  split
  · simp [hth, this]
  · rfl

theorem UnloadTexture_last (idx : Int) (s : TexturesystemClass) (th : TextureHandle)
    (hidx : 0 ≤ idx) (hth : s._loaded_textures[idx.toNat]? = some th)
    (h1 : th.instances = 1) :
    UnloadTexture idx s =
      { s with
        _loaded_textures :=
          s._loaded_textures.set idx.toNat { th with tex := none, instances := 0 }
        unloadCalls := s.unloadCalls ++ [idx.toNat] } := by
  have hlt : idx.toNat < s._loaded_textures.length := by
    by_contra hc
    rw [List.getElem?_eq_none (by omega)] at hth
    cases hth
  have hr : 0 ≤ idx ∧ idx < (s._loaded_textures.length : Int) := by omega
  unfold UnloadTexture
  simp [hr, hth, h1, DX8_UnloadTexture, SafeRelease]

theorem UnloadTexture_shared (idx : Int) (s : TexturesystemClass) (th : TextureHandle)
    (hidx : 0 ≤ idx) (hth : s._loaded_textures[idx.toNat]? = some th)
    (h1 : 1 < th.instances) :
    UnloadTexture idx s =
      { s with
        _loaded_textures :=
          s._loaded_textures.set idx.toNat { th with instances := th.instances - 1 } } := by
  have hlt : idx.toNat < s._loaded_textures.length := by
    by_contra hc
    rw [List.getElem?_eq_none (by omega)] at hth
    cases hth
  have hr : 0 ≤ idx ∧ idx < (s._loaded_textures.length : Int) := by omega
  have hpos : th.instances > 0 := by omega
  have hne : ¬ th.instances - 1 = 0 := by omega
  unfold UnloadTexture
  simp [hr, hth, hpos, hne]

theorem getElem?_lt_length {α : Type} (l : List α) (i : Nat) (a : α)
    (h : l[i]? = some a) : i < l.length := by
  by_contra hc
  rw [List.getElem?_eq_none (by omega)] at h
  cases h

/-- The slot `idx` and the unload log after `k` releases of a slot that holds more than
`k` instances. -/
theorem UnloadTexture_iterate_shared (idx : Int) (s : TexturesystemClass)
    (th : TextureHandle) (hidx : 0 ≤ idx)
    (hth : s._loaded_textures[idx.toNat]? = some th) (k : Nat)
    (hk : (k : Int) < th.instances) :
    ((UnloadTexture idx)^[k] s)._loaded_textures[idx.toNat]?
        = some { th with instances := th.instances - k } ∧
      ((UnloadTexture idx)^[k] s).unloadCalls = s.unloadCalls := by
  induction k with
  | zero => simp [hth]
  | succ k ih =>
      have hk' : (k : Int) < th.instances := by omega
      obtain ⟨h1, h2⟩ := ih hk'
      rw [Function.iterate_succ_apply']
      have hgt : 1 < ({ th with instances := th.instances - k } : TextureHandle).instances := by
        show 1 < th.instances - k
        omega
      rw [UnloadTexture_shared idx _ _ hidx h1 hgt]
      have hlt := getElem?_lt_length _ _ _ h1
      refine ⟨?_, h2⟩
      simp only [List.getElem?_set_self hlt]
      congr 2
      show th.instances - k - 1 = th.instances - ((k + 1 : Nat) : Int)
      omega

theorem LoadTexture_of_empty (ld : Loader) (s : TexturesystemClass) :
    LoadTexture ld "" s = .ok (-1, s) := by
  simp [LoadTexture]

/-! ## Release timing, the empty name and defensive release -/

/-- C2: a slot at a valid index `idx` with `instances = n ≥ 1`: after `k < n` calls of
`UnloadTexture(idx)` the slot holds `n - k` instances (so 1 after `n - 1` calls), still has
its resource, and no backend unload call was made; the `n`-th call brings `instances` to 0
and makes exactly one backend unload call, for slot `idx`. -/
theorem UnloadTexture_release_timing (idx : Int) (s : TexturesystemClass)
    (th : TextureHandle) (n : Nat) (hidx : 0 ≤ idx)
    (hth : s._loaded_textures[idx.toNat]? = some th)
    (hn : th.instances = n) (hpos : 1 ≤ n) :
    (∀ k : Nat, k < n →
        ((UnloadTexture idx)^[k] s)._loaded_textures[idx.toNat]?
            = some { th with instances := (n : Int) - k } ∧
          ((UnloadTexture idx)^[k] s).unloadCalls = s.unloadCalls) ∧
      ((UnloadTexture idx)^[n] s)._loaded_textures[idx.toNat]?
          = some { th with tex := none, instances := 0 } ∧
      ((UnloadTexture idx)^[n] s).unloadCalls = s.unloadCalls ++ [idx.toNat] := by
  have hshared : ∀ k : Nat, k < n →
      ((UnloadTexture idx)^[k] s)._loaded_textures[idx.toNat]?
          = some { th with instances := (n : Int) - k } ∧
        ((UnloadTexture idx)^[k] s).unloadCalls = s.unloadCalls := by
    intro k hk
    have := UnloadTexture_iterate_shared idx s th hidx hth k (by omega)
    rw [hn] at this
    exact this
  refine ⟨hshared, ?_⟩
  obtain ⟨m, rfl⟩ : ∃ m, n = m + 1 := ⟨n - 1, by omega⟩
  obtain ⟨h1, h2⟩ := hshared m (by omega)
  rw [Function.iterate_succ_apply']
  have hone : ({ th with instances := ((m + 1 : Nat) : Int) - m } : TextureHandle).instances = 1 := by
    show ((m + 1 : Nat) : Int) - m = 1
    omega
  rw [UnloadTexture_last idx _ _ hidx h1 hone]
  have hlt := getElem?_lt_length _ _ _ h1
  exact ⟨by simp only [List.getElem?_set_self hlt], by simp only [h2]⟩

/-- C2 on the slot with 5 instances: four releases leave one instance, the resource and an
empty unload log; the fifth empties the slot and logs one unload call for slot 2. -/
theorem UnloadTexture_release_timing_witness :
    (0 : Int) ≤ 2 ∧
      slots025._loaded_textures[(2 : Int).toNat]?
        = some { tex := some 7, instances := 5, npot_scalex := 1, npot_scaley := 1 } ∧
      ((UnloadTexture 2)^[4] slots025)._loaded_textures[(2 : Int).toNat]?
        = some { tex := some 7, instances := (5 : Nat) - (4 : Nat),
                 npot_scalex := 1, npot_scaley := 1 } ∧
      ((UnloadTexture 2)^[4] slots025).unloadCalls = slots025.unloadCalls ∧
      ((UnloadTexture 2)^[5] slots025)._loaded_textures[(2 : Int).toNat]?
        = some { tex := none, instances := 0, npot_scalex := 1, npot_scaley := 1 } ∧
      ((UnloadTexture 2)^[5] slots025).unloadCalls = slots025.unloadCalls ++ [(2 : Int).toNat] :=
  have h := UnloadTexture_release_timing 2 slots025
    { tex := some 7, instances := 5, npot_scalex := 1, npot_scaley := 1 } 5
    (by decide) rfl rfl (by decide)
  ⟨by decide, rfl, (h.1 4 (by decide)).1, (h.1 4 (by decide)).2, h.2.1, h.2.2⟩

/-- C4: `LoadTexture("")` returns -1 and leaves the cache as it was: name map, slots,
scale factors, `GameRunning` and both collaborator logs. -/
theorem LoadTexture_empty_name (ld : Loader) (s : TexturesystemClass) :
    LoadTexture ld "" s = .ok (-1, s) := by
  simp [LoadTexture]

/-- C7: `UnloadTexture(idx)` changes nothing (cache and unload log included) when `idx` is
negative, or not below the number of slots, or names a slot whose `instances` is 0. -/
theorem UnloadTexture_defensive (idx : Int) (s : TexturesystemClass)
    (h : idx < 0 ∨ (s._loaded_textures.length : Int) ≤ idx ∨
      ∃ th, s._loaded_textures[idx.toNat]? = some th ∧ th.instances = 0) :
    UnloadTexture idx s = s := by
  rcases h with h | h | ⟨th, hth, h0⟩
  · exact UnloadTexture_out_of_range idx s (Or.inl h)
  · exact UnloadTexture_out_of_range idx s (Or.inr h)
  · exact UnloadTexture_not_loaded idx s th hth (by omega)

/-- C7 on the three-slot cache: index -1, index 3 (one past the end) and slot 0, which
holds no instance, are all left alone. -/
theorem UnloadTexture_defensive_witness :
    ((-1 : Int) < 0 ∧ UnloadTexture (-1) slots025 = slots025) ∧
      ((slots025._loaded_textures.length : Int) ≤ 3 ∧ UnloadTexture 3 slots025 = slots025) ∧
      ((∃ th, slots025._loaded_textures[(0 : Int).toNat]? = some th ∧ th.instances = 0) ∧
        UnloadTexture 0 slots025 = slots025) :=
  ⟨⟨by decide, UnloadTexture_defensive (-1) slots025 (Or.inl (by decide))⟩,
    ⟨by decide, UnloadTexture_defensive 3 slots025 (Or.inr (Or.inl (by decide)))⟩,
    ⟨⟨_, rfl, rfl⟩, UnloadTexture_defensive 0 slots025 (Or.inr (Or.inr ⟨_, rfl, rfl⟩))⟩⟩

/-! ## `Exit` -/

theorem set_append_length {α : Type} (pre : List α) (a b : α) (post : List α) :
    (pre ++ a :: post).set pre.length b = pre ++ b :: post := by
  induction pre with
  | nil => rfl
  | cons x xs ih => simp [ih]

theorem getElem?_append_length {α : Type} (pre : List α) (a : α) (post : List α) :
    (pre ++ a :: post)[pre.length]? = some a := by
  induction pre with
  | nil => simp
  | cons x xs ih => simpa using ih

/-- The loop of `Exit`, started at index `pre.length` with enough iterations left,
resets every remaining slot and logs one unload call per slot that was loaded. -/
theorem Exit_loop_eq (post : List TextureHandle) :
    ∀ (pre : List TextureHandle) (s : TexturesystemClass) (fuel : Nat),
      s._loaded_textures = pre ++ post → post.length ≤ fuel →
      Exit.loop fuel pre.length s =
        { s with
          _loaded_textures := pre ++ post.map Exit.reset
          unloadCalls := s.unloadCalls ++ Exit.live pre.length post } := by
  induction post with
  | nil =>
      intro pre s fuel hs _
      have hnot : ¬ pre.length < s._loaded_textures.length := by simp [hs]
      cases fuel with
      | zero => cases s; simp_all [Exit.loop, Exit.live]
      | succ f => cases s; simp_all [Exit.loop, Exit.live]
  | cons th rest ih =>
      intro pre s fuel hs hfuel
      obtain ⟨f, rfl⟩ : ∃ f, fuel = f + 1 := ⟨fuel - 1, by simp at hfuel; omega⟩
      have hf : rest.length ≤ f := by simp at hfuel; omega
      have hlt : pre.length < s._loaded_textures.length := by simp [hs]
      have hget : s._loaded_textures[pre.length]? = some th := by
        rw [hs]; exact getElem?_append_length pre th rest
      have hlen : (pre ++ [Exit.reset th]).length = pre.length + 1 := by simp
      by_cases hpos : th.instances > 0
      · have hstep : Exit.loop (f + 1) pre.length s =
            Exit.loop f (pre.length + 1)
              (UnloadTexture (pre.length : Int)
                { s with _loaded_textures :=
                    s._loaded_textures.set pre.length { th with instances := 1 } }) := by
          rw [Exit.loop]; simp [hlt, hget, hpos]
        rw [hstep]
        have hget1 : ({ s with _loaded_textures :=
              s._loaded_textures.set pre.length { th with instances := 1 } }
              : TexturesystemClass)._loaded_textures[(pre.length : Int).toNat]?
            = some { th with instances := 1 } := by
          simp [hlt]
        rw [UnloadTexture_last _ _ _ (by omega) hget1 rfl]
        have hslots : ((s._loaded_textures.set pre.length { th with instances := 1 }).set
              (pre.length : Int).toNat
              { ({ th with instances := 1 } : TextureHandle) with tex := none, instances := 0 })
            = (pre ++ [Exit.reset th]) ++ rest := by
          simp [hs, set_append_length, Exit.reset, hpos]
        rw [← hlen]
        rw [ih (pre ++ [Exit.reset th]) _ f hslots hf]
        simp [Exit.live, hpos]
      · have hstep : Exit.loop (f + 1) pre.length s = Exit.loop f (pre.length + 1) s := by
          rw [Exit.loop]; simp [hlt, hget, hpos]
        rw [hstep]
        have hslots : s._loaded_textures = (pre ++ [Exit.reset th]) ++ rest := by
          simp [hs, Exit.reset, hpos]
        rw [← hlen]
        rw [ih (pre ++ [Exit.reset th]) s f hslots hf]
        simp [Exit.live, hpos]

/-- Closed form of `Exit`. -/
theorem Exit_eq (s : TexturesystemClass) :
    Exit s =
      { s with
        _loaded_textures := s._loaded_textures.map Exit.reset
        unloadCalls := s.unloadCalls ++ Exit.live 0 s._loaded_textures } := by
  have := Exit_loop_eq s._loaded_textures [] s s._loaded_textures.length (by simp) (le_refl _)
  simpa [Exit] using this

/-- More iterations than slots change nothing: the loop of `Exit` has ended by itself
when its bound is reached. -/
theorem Exit_loop_enough (s : TexturesystemClass) (extra : Nat) :
    Exit.loop (s._loaded_textures.length + extra) 0 s = Exit s := by
  have := Exit_loop_eq s._loaded_textures [] s (s._loaded_textures.length + extra)
    (by simp) (by omega)
  rw [Exit_eq]
  simpa using this

theorem Exit_live_mem (l : List TextureHandle) :
    ∀ (i j : Nat), j ∈ Exit.live i l ↔
      ∃ k th, j = i + k ∧ l[k]? = some th ∧ th.instances > 0 := by
  induction l with
  | nil => intro i j; simp [Exit.live]
  | cons th rest ih =>
      intro i j
      have hrec : j ∈ Exit.live (i + 1) rest ↔
          ∃ k th', j = i + 1 + k ∧ rest[k]? = some th' ∧ th'.instances > 0 := ih (i + 1) j
      constructor
      · intro hj
        by_cases hpos : th.instances > 0
        · simp only [Exit.live, hpos, if_true, List.mem_cons] at hj
          rcases hj with rfl | hj
          · exact ⟨0, th, by simp, by simp, hpos⟩
          · obtain ⟨k, th', hk, hget, hp⟩ := hrec.mp hj
            exact ⟨k + 1, th', by omega, by simpa using hget, hp⟩
        · simp only [Exit.live, hpos, if_false] at hj
          obtain ⟨k, th', hk, hget, hp⟩ := hrec.mp hj
          exact ⟨k + 1, th', by omega, by simpa using hget, hp⟩
      · rintro ⟨k, th', hk, hget, hp⟩
        cases k with
        | zero =>
            simp at hget
            subst hget
            simp [Exit.live, hp, hk]
        | succ k =>
            have hmem : j ∈ Exit.live (i + 1) rest :=
              hrec.mpr ⟨k, th', by omega, by simpa using hget, hp⟩
            by_cases hpos : th.instances > 0
            · simp [Exit.live, hpos, hmem]
            · simpa [Exit.live, hpos] using hmem

theorem Exit_live_nodup (l : List TextureHandle) : ∀ i : Nat, (Exit.live i l).Nodup := by
  induction l with
  | nil => intro i; simp [Exit.live]
  | cons th rest ih =>
      intro i
      by_cases hpos : th.instances > 0
      · simp only [Exit.live, hpos, if_true, List.nodup_cons]
        refine ⟨?_, ih (i + 1)⟩
        intro hmem
        obtain ⟨k, _, hk, _, _⟩ := (Exit_live_mem rest (i + 1) i).mp hmem
        omega
      · simpa [Exit.live, hpos] using ih (i + 1)

theorem Exit_reset_idem (th : TextureHandle) : Exit.reset (Exit.reset th) = Exit.reset th := by
  by_cases hpos : th.instances > 0
  · simp [Exit.reset, hpos]
  · simp [Exit.reset, hpos]

theorem Exit_live_reset (l : List TextureHandle) :
    ∀ i : Nat, Exit.live i (l.map Exit.reset) = [] := by
  induction l with
  | nil => intro i; simp [Exit.live]
  | cons th rest ih =>
      intro i
      have hno : ¬ (Exit.reset th).instances > 0 := by
        by_cases hpos : th.instances > 0
        · simp [Exit.reset, hpos]
        · simp [Exit.reset, hpos]
      simp [Exit.live, hno, ih]

/-- C3: `Exit` makes exactly one backend unload call for each slot with `instances > 0`
and none for the other slots (the new log entries are duplicate-free and are exactly the
indices of the loaded slots); when no count is negative, every slot has `instances = 0`
afterwards; a second `Exit` right after changes nothing at all, so it makes no unload call;
and three slots holding 0, 2 and 5 instances give exactly two unload calls. -/
theorem Exit_shutdown (s : TexturesystemClass) :
    (∃ calls : List Nat,
        (Exit s).unloadCalls = s.unloadCalls ++ calls ∧ calls.Nodup ∧
        ∀ i, i ∈ calls ↔ ∃ th, s._loaded_textures[i]? = some th ∧ th.instances > 0) ∧
      ((∀ th ∈ s._loaded_textures, 0 ≤ th.instances) →
        ∀ th ∈ (Exit s)._loaded_textures, th.instances = 0) ∧
      Exit (Exit s) = Exit s ∧
      (Exit slots025).unloadCalls.length = slots025.unloadCalls.length + 2 := by
  refine ⟨⟨Exit.live 0 s._loaded_textures, ?_, Exit_live_nodup _ 0, ?_⟩, ?_, ?_, ?_⟩
  · rw [Exit_eq]
  · intro i
    rw [Exit_live_mem]
    constructor
    · rintro ⟨k, th, hk, hget, hp⟩
      have : i = k := by omega
      subst this
      exact ⟨th, hget, hp⟩
    · rintro ⟨th, hget, hp⟩
      exact ⟨i, th, by omega, hget, hp⟩
  · intro hnn th hth
    rw [Exit_eq] at hth
    simp only [List.mem_map] at hth
    obtain ⟨th0, hmem, rfl⟩ := hth
    have h0 := hnn th0 hmem
    by_cases hpos : th0.instances > 0
    · simp [Exit.reset, hpos]
    · simp only [Exit.reset, hpos, if_false]
      omega
  · rw [Exit_eq (Exit s), Exit_eq s]
    simp [Exit_reset_idem, Exit_live_reset]
  · decide

/-- C3 at the slots with 0, 2 and 5 instances: the unload calls are those for slots 1
and 2, and all counts end at 0. -/
theorem Exit_shutdown_witness :
    (∀ th ∈ slots025._loaded_textures, 0 ≤ th.instances) ∧
      (Exit slots025).unloadCalls = [1, 2] ∧
      (∀ th ∈ (Exit slots025)._loaded_textures, th.instances = 0) ∧
      (Exit (Exit slots025)).unloadCalls = [1, 2] :=
  have hnn : ∀ th ∈ slots025._loaded_textures, 0 ≤ th.instances := by decide
  ⟨hnn, by decide, (Exit_shutdown slots025).2.1 hnn,
    by rw [(Exit_shutdown slots025).2.2.1]; decide⟩

/-! ## `LoadTexture` case by case -/

theorem toInt16_small (n : Nat) (h : n < 32768) : toInt16 n = (n : Int) := by
  have h1 : n % 65536 = n := Nat.mod_eq_of_lt (by omega)
  simp [toInt16, h1, h]

theorem resolve_hit (filename : String) (s : TexturesystemClass) (i : Int)
    (hfind : mapFind s._texture_map filename = some i) (hi : i ≠ -1) :
    LoadTexture.resolve filename s = (i, s) := by
  simp [LoadTexture.resolve, hfind, hi]

theorem resolve_miss (filename : String) (s : TexturesystemClass)
    (hfind : mapFind s._texture_map filename = none) :
    LoadTexture.resolve filename s =
      (toInt16 s._loaded_textures.length,
        { s with
          _loaded_textures := s._loaded_textures ++ [TextureHandle.new]
          _texture_map :=
            mapSet s._texture_map filename (toInt16 s._loaded_textures.length) }) := by
  simp [LoadTexture.resolve, hfind]

/-- The call returns when the resolved index names a slot. -/
theorem LoadTexture_ok (ld : Loader) (filename : String) (s s1 : TexturesystemClass)
    (idx : Int) (th : TextureHandle) (hne : filename ≠ "")
    (hres : LoadTexture.resolve filename s = (idx, s1)) (hidx : 0 ≤ idx)
    (hth : s1._loaded_textures[idx.toNat]? = some th) :
    LoadTexture ld filename s =
      .ok (idx,
        { s1 with
          _loaded_textures := s1._loaded_textures.set idx.toNat
            (LoadTexture.override filename (LoadTexture.acquire ld filename th s1).1 s1)
          GameRunning := (LoadTexture.acquire ld filename th s1).2.1
          loadCalls := (LoadTexture.acquire ld filename th s1).2.2 }) := by
  have hlt := getElem?_lt_length _ _ _ hth
  have hr : 0 ≤ idx ∧ idx < (s1._loaded_textures.length : Int) := by omega
  simp only [LoadTexture, hne, hres, if_false]
  simp only [hr, and_self, if_true, hth]

/-- The call has no defined result when the resolved index names no slot. -/
theorem LoadTexture_fault (ld : Loader) (filename : String) (s s1 : TexturesystemClass)
    (idx : Int) (hne : filename ≠ "")
    (hres : LoadTexture.resolve filename s = (idx, s1))
    (hidx : idx < 0 ∨ (s1._loaded_textures.length : Int) ≤ idx) :
    LoadTexture ld filename s = .error { idx := idx, state := s1 } := by
  have hr : ¬ (0 ≤ idx ∧ idx < (s1._loaded_textures.length : Int)) := by omega
  simp only [LoadTexture, hne, hres, if_false]
  simp only [hr, if_false]

theorem acquire_resident (ld : Loader) (filename : String) (th : TextureHandle)
    (s : TexturesystemClass) (h : th.instances > 0) :
    LoadTexture.acquire ld filename th s =
      ({ th with instances := th.instances + 1 }, s.GameRunning, s.loadCalls) := by
  simp [LoadTexture.acquire, h]

theorem acquire_load (ld : Loader) (filename : String) (th : TextureHandle)
    (s : TexturesystemClass) (h : ¬ th.instances > 0) :
    LoadTexture.acquire ld filename th s =
      ({ (ld filename th s.GameRunning).th with
          instances := if (ld filename th s.GameRunning).success then 1 else 0 },
        (if (ld filename th s.GameRunning).success
          then (ld filename th s.GameRunning).GameRunning else false),
        s.loadCalls ++ [filename]) := by
  by_cases hs : (ld filename th s.GameRunning).success
  · simp [LoadTexture.acquire, h, hs]
  · simp [LoadTexture.acquire, h, hs]

theorem override_instances (filename : String) (th : TextureHandle) (s : TexturesystemClass) :
    (LoadTexture.override filename th s).instances = th.instances := by
  unfold LoadTexture.override
  split
  · split <;> rfl
  · rfl

theorem override_tex (filename : String) (th : TextureHandle) (s : TexturesystemClass) :
    (LoadTexture.override filename th s).tex = th.tex := by
  unfold LoadTexture.override
  split
  · split <;> rfl
  · rfl

theorem LoadTexture_ok_commit (ld : Loader) (filename : String) (s s1 : TexturesystemClass)
    (idx : Int) (th : TextureHandle) (hne : filename ≠ "")
    (hres : LoadTexture.resolve filename s = (idx, s1)) (hidx : 0 ≤ idx)
    (hth : s1._loaded_textures[idx.toNat]? = some th) :
    LoadTexture ld filename s = .ok (idx, LoadTexture.commit ld filename idx.toNat th s1) :=
  LoadTexture_ok ld filename s s1 idx th hne hres hidx hth

theorem acquire_nonneg (ld : Loader) (filename : String) (th : TextureHandle)
    (s : TexturesystemClass) : 0 ≤ (LoadTexture.acquire ld filename th s).1.instances := by
  by_cases h : th.instances > 0
  · rw [acquire_resident ld filename th s h]
    show 0 ≤ th.instances + 1
    omega
  · rw [acquire_load ld filename th s h]
    show 0 ≤ (if (ld filename th s.GameRunning).success then (1 : Int) else 0)
    split <;> omega

/-- A name already in the map of a well-formed cache: the call returns its index. -/
theorem LoadTexture_known (ld : Loader) (filename : String) (s : TexturesystemClass)
    (i : Int) (hwf : WellFormed s) (hne : filename ≠ "")
    (hfind : mapFind s._texture_map filename = some i) :
    ∃ th, s._loaded_textures[i.toNat]? = some th ∧
      LoadTexture ld filename s = .ok (i, LoadTexture.commit ld filename i.toNat th s) := by
  obtain ⟨h0, hlt⟩ := hwf.bounds filename i hfind
  have hlt' : i.toNat < s._loaded_textures.length := by omega
  refine ⟨s._loaded_textures[i.toNat], by simp [hlt'], ?_⟩
  exact LoadTexture_ok_commit ld filename s s i _ hne
    (resolve_hit filename s i hfind (by omega)) h0 (by simp [hlt'])

/-- The cache after lines 79-86 for a name not seen before. -/
theorem LoadTexture_new (ld : Loader) (filename : String) (s : TexturesystemClass)
    (hne : filename ≠ "") (hfind : mapFind s._texture_map filename = none)
    (hcap : s._loaded_textures.length < 32768) :
    LoadTexture ld filename s =
      .ok ((s._loaded_textures.length : Int),
        LoadTexture.commit ld filename s._loaded_textures.length TextureHandle.new
          { s with
            _loaded_textures := s._loaded_textures ++ [TextureHandle.new]
            _texture_map :=
              mapSet s._texture_map filename (s._loaded_textures.length : Int) }) := by
  have hres := resolve_miss filename s hfind
  rw [toInt16_small _ hcap] at hres
  have := LoadTexture_ok_commit ld filename s _ _ TextureHandle.new hne hres (by omega)
    (by simp)
  simpa using this

/-- The 32769th name: the truncated index is -32768 and line 88 is out of bounds. -/
theorem LoadTexture_full (ld : Loader) (filename : String) (s : TexturesystemClass)
    (hne : filename ≠ "") (hfind : mapFind s._texture_map filename = none)
    (hcap : s._loaded_textures.length = 32768) :
    LoadTexture ld filename s =
      .error
        { idx := -32768
          state :=
            { s with
              _loaded_textures := s._loaded_textures ++ [TextureHandle.new]
              _texture_map := mapSet s._texture_map filename (-32768) } } := by
  have hres := resolve_miss filename s hfind
  have h16 : toInt16 s._loaded_textures.length = -32768 := by rw [hcap]; decide
  rw [h16] at hres
  exact LoadTexture_fault ld filename s _ _ hne hres (Or.inl (by omega))

/-! ## Well-formedness is kept by every call -/

theorem WellFormed_empty (overrides : List (String × (Rat × Rat))) :
    WellFormed (TexturesystemClass.withOverrides overrides) :=
  { bounds := by
      intro k i h
      simp [TexturesystemClass.withOverrides, TexturesystemClass.empty, mapFind] at h
    capacity := by simp [TexturesystemClass.withOverrides, TexturesystemClass.empty]
    inj := by
      intro a b i h
      simp [TexturesystemClass.withOverrides, TexturesystemClass.empty, mapFind] at h
    nonneg := by
      intro th h
      simp [TexturesystemClass.withOverrides, TexturesystemClass.empty] at h }

theorem WellFormed_commit (ld : Loader) (filename : String) (i : Nat) (th : TextureHandle)
    (s : TexturesystemClass) (hwf : WellFormed s) :
    WellFormed (LoadTexture.commit ld filename i th s) :=
  { bounds := by
      intro k v h
      have := hwf.bounds k v h
      simpa [LoadTexture.commit] using this
    capacity := by simpa [LoadTexture.commit] using hwf.capacity
    inj := hwf.inj
    nonneg := by
      intro t ht
      rcases List.mem_or_eq_of_mem_set ht with h | h
      · exact hwf.nonneg t h
      · rw [h, override_instances]
        exact acquire_nonneg ld filename th s }

theorem WellFormed_add (filename : String) (s : TexturesystemClass) (hwf : WellFormed s)
    (hfind : mapFind s._texture_map filename = none)
    (hcap : s._loaded_textures.length < 32768) :
    WellFormed
      { s with
        _loaded_textures := s._loaded_textures ++ [TextureHandle.new]
        _texture_map := mapSet s._texture_map filename (s._loaded_textures.length : Int) } :=
  { bounds := by
      intro k v h
      simp only [List.length_append, List.length_singleton]
      by_cases hk : k = filename
      · subst hk
        rw [mapFind_mapSet_same] at h
        cases h
        omega
      · rw [mapFind_mapSet_other _ _ _ _ hk] at h
        have := hwf.bounds k v h
        omega
    capacity := by simp only [List.length_append, List.length_singleton]; omega
    inj := by
      intro a b v ha hb
      by_cases hka : a = filename
      · by_cases hkb : b = filename
        · rw [hka, hkb]
        · subst hka
          rw [mapFind_mapSet_same] at ha
          rw [mapFind_mapSet_other _ _ _ _ hkb] at hb
          cases ha
          have := hwf.bounds b _ hb
          omega
      · by_cases hkb : b = filename
        · subst hkb
          rw [mapFind_mapSet_same] at hb
          rw [mapFind_mapSet_other _ _ _ _ hka] at ha
          cases hb
          have := hwf.bounds a _ ha
          omega
        · rw [mapFind_mapSet_other _ _ _ _ hka] at ha
          rw [mapFind_mapSet_other _ _ _ _ hkb] at hb
          exact hwf.inj a b v ha hb
    nonneg := by
      intro t ht
      simp only [List.mem_append, List.mem_singleton] at ht
      rcases ht with h | h
      · exact hwf.nonneg t h
      · rw [h]; simp [TextureHandle.new] }

/-- What a call of `LoadTexture` with a non-empty name does in a well-formed cache: it
returns the index stored for a known name, or creates slot `size` for a new name while
fewer than 32768 slots exist, or faults at the 32769th name. -/
theorem LoadTexture_cases (ld : Loader) (filename : String) (s : TexturesystemClass)
    (hwf : WellFormed s) (hne : filename ≠ "") :
    (∃ i th, mapFind s._texture_map filename = some i ∧
        s._loaded_textures[i.toNat]? = some th ∧ 0 ≤ i ∧
        LoadTexture ld filename s = .ok (i, LoadTexture.commit ld filename i.toNat th s)) ∨
      (mapFind s._texture_map filename = none ∧ s._loaded_textures.length < 32768 ∧
        LoadTexture ld filename s =
          .ok ((s._loaded_textures.length : Int),
            LoadTexture.commit ld filename s._loaded_textures.length TextureHandle.new
              { s with
                _loaded_textures := s._loaded_textures ++ [TextureHandle.new]
                _texture_map :=
                  mapSet s._texture_map filename (s._loaded_textures.length : Int) })) ∨
      (mapFind s._texture_map filename = none ∧ s._loaded_textures.length = 32768 ∧
        ∃ f, LoadTexture ld filename s = .error f) := by
  cases hfind : mapFind s._texture_map filename with
  | some i =>
      left
      obtain ⟨th, hth, hld⟩ := LoadTexture_known ld filename s i hwf hne hfind
      exact ⟨i, th, rfl, hth, (hwf.bounds filename i hfind).1, hld⟩
  | none =>
      right
      by_cases hcap : s._loaded_textures.length < 32768
      · exact Or.inl ⟨rfl, hcap, LoadTexture_new ld filename s hne hfind hcap⟩
      · have heq : s._loaded_textures.length = 32768 := by
          have := hwf.capacity
          omega
        exact Or.inr ⟨rfl, heq, _, LoadTexture_full ld filename s hne hfind heq⟩

theorem WellFormed_LoadTexture (ld : Loader) (filename : String) (s s1 : TexturesystemClass)
    (idx : Int) (hwf : WellFormed s) (h : LoadTexture ld filename s = .ok (idx, s1)) :
    WellFormed s1 := by
  by_cases hne : filename = ""
  · subst hne
    rw [LoadTexture_of_empty] at h
    cases h
    exact hwf
  · rcases LoadTexture_cases ld filename s hwf hne with
      ⟨i, th, _, _, _, hld⟩ | ⟨hfind, hcap, hld⟩ | ⟨_, _, f, hld⟩
    · rw [hld] at h
      cases h
      exact WellFormed_commit ld filename _ th s hwf
    · rw [hld] at h
      cases h
      exact WellFormed_commit ld filename _ _ _ (WellFormed_add filename s hwf hfind hcap)
    · rw [hld] at h
      cases h

theorem UnloadTexture_cases (idx : Int) (s : TexturesystemClass) :
    UnloadTexture idx s = s ∨
      ∃ th, 0 ≤ idx ∧ s._loaded_textures[idx.toNat]? = some th ∧
        ((1 < th.instances ∧
            UnloadTexture idx s =
              { s with
                _loaded_textures :=
                  s._loaded_textures.set idx.toNat
                    { th with instances := th.instances - 1 } }) ∨
          (th.instances = 1 ∧
            UnloadTexture idx s =
              { s with
                _loaded_textures :=
                  s._loaded_textures.set idx.toNat { th with tex := none, instances := 0 }
                unloadCalls := s.unloadCalls ++ [idx.toNat] })) := by
  by_cases hr : idx < 0 ∨ (s._loaded_textures.length : Int) ≤ idx
  · exact Or.inl (UnloadTexture_out_of_range idx s hr)
  · have hlt : idx.toNat < s._loaded_textures.length := by omega
    have hget : s._loaded_textures[idx.toNat]? = some s._loaded_textures[idx.toNat] := by
      simp [hlt]
    by_cases h0 : s._loaded_textures[idx.toNat].instances ≤ 0
    · exact Or.inl (UnloadTexture_not_loaded idx s _ hget h0)
    · right
      refine ⟨_, by omega, hget, ?_⟩
      by_cases h1 : s._loaded_textures[idx.toNat].instances = 1
      · exact Or.inr ⟨h1, UnloadTexture_last idx s _ (by omega) hget h1⟩
      · exact Or.inl ⟨by omega, UnloadTexture_shared idx s _ (by omega) hget (by omega)⟩

theorem UnloadTexture_texture_map (idx : Int) (s : TexturesystemClass) :
    (UnloadTexture idx s)._texture_map = s._texture_map := by
  rcases UnloadTexture_cases idx s with h | ⟨th, _, _, ⟨_, h⟩ | ⟨_, h⟩⟩ <;> rw [h]

theorem UnloadTexture_length (idx : Int) (s : TexturesystemClass) :
    (UnloadTexture idx s)._loaded_textures.length = s._loaded_textures.length := by
  rcases UnloadTexture_cases idx s with h | ⟨th, _, _, ⟨_, h⟩ | ⟨_, h⟩⟩ <;> rw [h] <;> simp

theorem WellFormed_UnloadTexture (idx : Int) (s : TexturesystemClass) (hwf : WellFormed s) :
    WellFormed (UnloadTexture idx s) :=
  { bounds := by
      rw [UnloadTexture_texture_map, UnloadTexture_length]
      exact hwf.bounds
    capacity := by rw [UnloadTexture_length]; exact hwf.capacity
    inj := by rw [UnloadTexture_texture_map]; exact hwf.inj
    nonneg := by
      intro t ht
      rcases UnloadTexture_cases idx s with h | ⟨th, _, _, ⟨h1, h⟩ | ⟨_, h⟩⟩
      · rw [h] at ht; exact hwf.nonneg t ht
      · rw [h] at ht
        rcases List.mem_or_eq_of_mem_set ht with hm | hm
        · exact hwf.nonneg t hm
        · rw [hm]
          show 0 ≤ th.instances - 1
          omega
      · rw [h] at ht
        rcases List.mem_or_eq_of_mem_set ht with hm | hm
        · exact hwf.nonneg t hm
        · rw [hm] }

theorem Exit_reset_nonneg (th : TextureHandle) (h : 0 ≤ th.instances) :
    0 ≤ (Exit.reset th).instances := by
  by_cases hpos : th.instances > 0
  · simp [Exit.reset, hpos]
  · simpa [Exit.reset, hpos] using h

theorem WellFormed_Exit (s : TexturesystemClass) (hwf : WellFormed s) : WellFormed (Exit s) := by
  rw [Exit_eq]
  exact
    { bounds := by
        intro k i h
        have := hwf.bounds k i h
        simpa using this
      capacity := by simpa using hwf.capacity
      inj := hwf.inj
      nonneg := by
        intro t ht
        simp only [List.mem_map] at ht
        obtain ⟨t0, hm, rfl⟩ := ht
        exact Exit_reset_nonneg t0 (hwf.nonneg t0 hm) }

/-! ## Runs -/

theorem step_LoadTexture_ok (s s1 : TexturesystemClass) (filename : String) (ld : Loader)
    (h : step s (.LoadTexture filename ld) = .ok s1) :
    ∃ idx, LoadTexture ld filename s = .ok (idx, s1) := by
  simp only [step] at h
  cases hl : LoadTexture ld filename s with
  | ok r =>
      rw [hl] at h
      cases h
      exact ⟨r.1, rfl⟩
  | error f =>
      rw [hl] at h
      cases h

theorem WellFormed_step (s s1 : TexturesystemClass) (c : Call) (hwf : WellFormed s)
    (h : step s c = .ok s1) : WellFormed s1 := by
  cases c with
  | LoadTexture filename ld =>
      obtain ⟨idx, hl⟩ := step_LoadTexture_ok s s1 filename ld h
      exact WellFormed_LoadTexture ld filename s s1 idx hwf hl
  | UnloadTexture idx =>
      simp only [step] at h
      cases h
      exact WellFormed_UnloadTexture idx s hwf
  | Exit =>
      simp only [step] at h
      cases h
      exact WellFormed_Exit s hwf

theorem run_cons_ok (s s2 : TexturesystemClass) (c : Call) (cs : List Call)
    (h : run s (c :: cs) = .ok s2) : ∃ s1, step s c = .ok s1 ∧ run s1 cs = .ok s2 := by
  simp only [run] at h
  cases hs : step s c with
  | ok s1 =>
      rw [hs] at h
      exact ⟨s1, rfl, h⟩
  | error f =>
      rw [hs] at h
      cases h

theorem run_append_ok (cs : List Call) :
    ∀ (s s1 s2 : TexturesystemClass) (ds : List Call),
      run s cs = .ok s1 → run s1 ds = .ok s2 → run s (cs ++ ds) = .ok s2 := by
  induction cs with
  | nil =>
      intro s s1 s2 ds h1 h2
      simp only [run] at h1
      cases h1
      simpa using h2
  | cons c cs ih =>
      intro s s1 s2 ds h1 h2
      obtain ⟨sm, hstep, hrest⟩ := run_cons_ok s s1 c cs h1
      simp only [List.cons_append, run, hstep]
      exact ih sm s1 s2 ds hrest h2

theorem WellFormed_run (cs : List Call) :
    ∀ (s s1 : TexturesystemClass), WellFormed s → run s cs = .ok s1 → WellFormed s1 := by
  induction cs with
  | nil =>
      intro s s1 hwf h
      simp only [run] at h
      cases h
      exact hwf
  | cons c cs ih =>
      intro s s1 hwf h
      obtain ⟨sm, hstep, hrest⟩ := run_cons_ok s s1 c cs h
      exact ih sm s1 (WellFormed_step s sm c hwf hstep) hrest

theorem Reachable_wellFormed (s : TexturesystemClass) (h : Reachable s) : WellFormed s := by
  obtain ⟨overrides, cs, hcs⟩ := h
  exact WellFormed_run cs _ s (WellFormed_empty overrides) hcs

theorem Reachable_run (s s1 : TexturesystemClass) (cs : List Call) (h : Reachable s)
    (hrun : run s cs = .ok s1) : Reachable s1 := by
  obtain ⟨overrides, ds, hds⟩ := h
  exact ⟨overrides, ds ++ cs, run_append_ok ds _ s s1 cs hds hrun⟩

/-! ## Append-only stores -/

theorem Exit_texture_map (s : TexturesystemClass) : (Exit s)._texture_map = s._texture_map := by
  rw [Exit_eq]

theorem Exit_length (s : TexturesystemClass) :
    (Exit s)._loaded_textures.length = s._loaded_textures.length := by
  rw [Exit_eq]; simp

theorem commit_texture_map (ld : Loader) (filename : String) (i : Nat) (th : TextureHandle)
    (s : TexturesystemClass) :
    (LoadTexture.commit ld filename i th s)._texture_map = s._texture_map := rfl

theorem commit_length (ld : Loader) (filename : String) (i : Nat) (th : TextureHandle)
    (s : TexturesystemClass) :
    (LoadTexture.commit ld filename i th s)._loaded_textures.length
      = s._loaded_textures.length := by
  simp [LoadTexture.commit]

theorem LoadTexture_append_only (ld : Loader) (filename : String) (s s1 : TexturesystemClass)
    (idx : Int) (hwf : WellFormed s) (h : LoadTexture ld filename s = .ok (idx, s1)) :
    s._loaded_textures.length ≤ s1._loaded_textures.length ∧
      ∀ k i, mapFind s._texture_map k = some i → mapFind s1._texture_map k = some i := by
  by_cases hne : filename = ""
  · subst hne
    rw [LoadTexture_of_empty] at h
    cases h
    exact ⟨le_refl _, fun _ _ hk => hk⟩
  · rcases LoadTexture_cases ld filename s hwf hne with
      ⟨i, th, _, _, _, hld⟩ | ⟨hfind, hcap, hld⟩ | ⟨_, _, f, hld⟩
    · rw [hld] at h
      cases h
      rw [commit_length, commit_texture_map]
      exact ⟨le_refl _, fun _ _ hk => hk⟩
    · rw [hld] at h
      cases h
      rw [commit_length, commit_texture_map]
      refine ⟨by simp, ?_⟩
      intro k i hk
      have hkn : k ≠ filename := by
        intro heq
        rw [heq, hfind] at hk
        cases hk
      show mapFind (mapSet s._texture_map filename _) k = some i
      rw [mapFind_mapSet_other _ _ _ _ hkn]
      exact hk
    · rw [hld] at h
      cases h

theorem step_append_only (s s1 : TexturesystemClass) (c : Call) (hwf : WellFormed s)
    (h : step s c = .ok s1) :
    s._loaded_textures.length ≤ s1._loaded_textures.length ∧
      (∀ k i, mapFind s._texture_map k = some i → mapFind s1._texture_map k = some i) ∧
      (c.isLoad = false →
        s1._texture_map = s._texture_map ∧
          s1._loaded_textures.length = s._loaded_textures.length) := by
  cases c with
  | LoadTexture filename ld =>
      obtain ⟨idx, hl⟩ := step_LoadTexture_ok s s1 filename ld h
      obtain ⟨h1, h2⟩ := LoadTexture_append_only ld filename s s1 idx hwf hl
      exact ⟨h1, h2, by simp [Call.isLoad]⟩
  | UnloadTexture idx =>
      simp only [step] at h
      cases h
      rw [UnloadTexture_texture_map, UnloadTexture_length]
      exact ⟨le_refl _, fun _ _ hk => hk, fun _ => ⟨rfl, rfl⟩⟩
  | Exit =>
      simp only [step] at h
      cases h
      rw [Exit_texture_map, Exit_length]
      exact ⟨le_refl _, fun _ _ hk => hk, fun _ => ⟨rfl, rfl⟩⟩

theorem run_append_only (cs : List Call) :
    ∀ (s s1 : TexturesystemClass), WellFormed s → run s cs = .ok s1 →
      s._loaded_textures.length ≤ s1._loaded_textures.length ∧
        (∀ k i, mapFind s._texture_map k = some i → mapFind s1._texture_map k = some i) ∧
        ((∀ c ∈ cs, c.isLoad = false) →
          s1._texture_map = s._texture_map ∧
            s1._loaded_textures.length = s._loaded_textures.length) := by
  induction cs with
  | nil =>
      intro s s1 _ h
      simp only [run] at h
      cases h
      exact ⟨le_refl _, fun _ _ hk => hk, fun _ => ⟨rfl, rfl⟩⟩
  | cons c cs ih =>
      intro s s1 hwf h
      obtain ⟨sm, hstep, hrest⟩ := run_cons_ok s s1 c cs h
      obtain ⟨a1, a2, a3⟩ := step_append_only s sm c hwf hstep
      obtain ⟨b1, b2, b3⟩ := ih sm s1 (WellFormed_step s sm c hwf hstep) hrest
      refine ⟨le_trans a1 b1, fun k i hk => b2 k i (a2 k i hk), ?_⟩
      intro hall
      obtain ⟨c1, c2⟩ := a3 (hall c (List.mem_cons_self _ _))
      obtain ⟨d1, d2⟩ := b3 (fun c' hc' => hall c' (List.mem_cons_of_mem _ hc'))
      exact ⟨d1.trans c1, d2.trans c2⟩

/-- C10: from a state the cache can reach, no sequence of `LoadTexture`, `UnloadTexture`
and `Exit` calls makes `_loaded_textures` shorter or removes or changes an entry of
`_texture_map`; a sequence of `UnloadTexture` and `Exit` calls alone leaves the size and
the whole `_texture_map` as they were (and each single such call does so in every cache
state), so a fully released name keeps its index. -/
theorem stores_append_only (s s1 : TexturesystemClass) (cs : List Call) (hr : Reachable s)
    (hrun : run s cs = .ok s1) :
    s._loaded_textures.length ≤ s1._loaded_textures.length ∧
      (∀ k i, mapFind s._texture_map k = some i → mapFind s1._texture_map k = some i) ∧
      ((∀ c ∈ cs, c.isLoad = false) →
        s1._texture_map = s._texture_map ∧
          s1._loaded_textures.length = s._loaded_textures.length) ∧
      (∀ (t : TexturesystemClass) (idx : Int),
        (UnloadTexture idx t)._texture_map = t._texture_map ∧
          (UnloadTexture idx t)._loaded_textures.length = t._loaded_textures.length) ∧
      (∀ t : TexturesystemClass,
        (Exit t)._texture_map = t._texture_map ∧
          (Exit t)._loaded_textures.length = t._loaded_textures.length) := by
  obtain ⟨h1, h2, h3⟩ := run_append_only cs s s1 (Reachable_wellFormed s hr) hrun
  exact ⟨h1, h2, h3,
    fun t idx => ⟨UnloadTexture_texture_map idx t, UnloadTexture_length idx t⟩,
    fun t => ⟨Exit_texture_map t, Exit_length t⟩⟩

theorem run_calls025 : run TexturesystemClass.empty calls025 = .ok slots025 := rfl

/-- C10 on a concrete run: after "c" is fully released, the cache shut down and "d"
loaded, the three old names keep their indices and the store has grown by one slot. -/
theorem stores_append_only_witness :
    ∃ s s1, Reachable s ∧ run s callsAfter025 = .ok s1 ∧
      s._loaded_textures.length = 3 ∧ s1._loaded_textures.length = 4 ∧
      mapFind s._texture_map "c" = some 2 ∧ mapFind s1._texture_map "c" = some 2 ∧
      s._loaded_textures.length ≤ s1._loaded_textures.length :=
  ⟨_, _, ⟨[], calls025, run_calls025⟩, rfl, rfl, rfl, rfl,
    (stores_append_only _ _ callsAfter025 ⟨[], calls025, run_calls025⟩ rfl).2.1 "c" 2 rfl,
    (stores_append_only _ _ callsAfter025 ⟨[], calls025, run_calls025⟩ rfl).1⟩

/-! ## Count and resource agree -/

theorem acquire_consistent (ld : Loader) (filename : String) (th : TextureHandle)
    (s : TexturesystemClass) (hld : Loader.Faithful ld)
    (hth : th.instances = 0 ↔ th.tex = none) :
    (LoadTexture.acquire ld filename th s).1.instances = 0 ↔
      (LoadTexture.acquire ld filename th s).1.tex = none := by
  by_cases h : th.instances > 0
  · rw [acquire_resident ld filename th s h]
    show th.instances + 1 = 0 ↔ th.tex = none
    constructor
    · intro h1; omega
    · intro h1
      have := hth.mpr h1
      omega
  · rw [acquire_load ld filename th s h]
    show (if (ld filename th s.GameRunning).success then (1 : Int) else 0) = 0 ↔
      (ld filename th s.GameRunning).th.tex = none
    have hf := hld filename th s.GameRunning
    by_cases hs : (ld filename th s.GameRunning).success = true
    · have : (ld filename th s.GameRunning).th.tex ≠ none := hf.mpr hs
      simp [hs, this]
    · have : (ld filename th s.GameRunning).th.tex = none := by
        by_contra hc
        exact hs (hf.mp hc)
      simp [hs, this]

theorem Consistent_commit (ld : Loader) (filename : String) (i : Nat) (th : TextureHandle)
    (s : TexturesystemClass) (hld : Loader.Faithful ld) (hc : Consistent s)
    (hth : th.instances = 0 ↔ th.tex = none) :
    Consistent (LoadTexture.commit ld filename i th s) := by
  intro t ht
  rcases List.mem_or_eq_of_mem_set ht with h | h
  · exact hc t h
  · rw [h, override_instances, override_tex]
    exact acquire_consistent ld filename th s hld hth

theorem Consistent_LoadTexture (ld : Loader) (filename : String) (s s1 : TexturesystemClass)
    (idx : Int) (hld : Loader.Faithful ld) (hwf : WellFormed s) (hc : Consistent s)
    (h : LoadTexture ld filename s = .ok (idx, s1)) : Consistent s1 := by
  by_cases hne : filename = ""
  · subst hne
    rw [LoadTexture_of_empty] at h
    cases h
    exact hc
  · rcases LoadTexture_cases ld filename s hwf hne with
      ⟨i, th, _, hth, _, hl⟩ | ⟨hfind, hcap, hl⟩ | ⟨_, _, f, hl⟩
    · rw [hl] at h
      cases h
      exact Consistent_commit ld filename _ th s hld hc
        (hc th (List.getElem?_mem hth))
    · rw [hl] at h
      cases h
      refine Consistent_commit ld filename _ _ _ hld ?_ (by simp [TextureHandle.new])
      intro t ht
      simp only [List.mem_append, List.mem_singleton] at ht
      rcases ht with hm | hm
      · exact hc t hm
      · rw [hm]; simp [TextureHandle.new]
    · rw [hl] at h
      cases h

theorem Consistent_UnloadTexture (idx : Int) (s : TexturesystemClass) (hc : Consistent s) :
    Consistent (UnloadTexture idx s) := by
  intro t ht
  rcases UnloadTexture_cases idx s with h | ⟨th, _, hth, ⟨h1, h⟩ | ⟨_, h⟩⟩
  · rw [h] at ht; exact hc t ht
  · rw [h] at ht
    rcases List.mem_or_eq_of_mem_set ht with hm | hm
    · exact hc t hm
    · rw [hm]
      show th.instances - 1 = 0 ↔ th.tex = none
      have := hc th (List.getElem?_mem hth)
      constructor
      · intro h2; omega
      · intro h2
        have := this.mpr h2
        omega
  · rw [h] at ht
    rcases List.mem_or_eq_of_mem_set ht with hm | hm
    · exact hc t hm
    · rw [hm]
      exact ⟨fun _ => rfl, fun _ => rfl⟩

theorem Consistent_Exit (s : TexturesystemClass) (hc : Consistent s) : Consistent (Exit s) := by
  rw [Exit_eq]
  intro t ht
  simp only [List.mem_map] at ht
  obtain ⟨t0, hm, rfl⟩ := ht
  by_cases hpos : t0.instances > 0
  · simp [Exit.reset, hpos]
  · simpa [Exit.reset, hpos] using hc t0 hm

theorem Consistent_run (cs : List Call) :
    ∀ (s s1 : TexturesystemClass), (∀ c ∈ cs, c.Faithful) → WellFormed s → Consistent s →
      run s cs = .ok s1 → Consistent s1 := by
  induction cs with
  | nil =>
      intro s s1 _ _ hc h
      simp only [run] at h
      cases h
      exact hc
  | cons c cs ih =>
      intro s s1 hall hwf hc h
      obtain ⟨sm, hstep, hrest⟩ := run_cons_ok s s1 c cs h
      have hcm : Consistent sm := by
        cases c with
        | LoadTexture filename ld =>
            obtain ⟨idx, hl⟩ := step_LoadTexture_ok s sm filename ld hstep
            have hf : Loader.Faithful ld := hall (.LoadTexture filename ld) (List.mem_cons_self _ _)
            exact Consistent_LoadTexture ld filename s sm idx hf hwf hc hl
        | UnloadTexture idx =>
            simp only [step] at hstep
            cases hstep
            exact Consistent_UnloadTexture idx s hc
        | Exit =>
            simp only [step] at hstep
            cases hstep
            exact Consistent_Exit s hc
      exact ih sm s1 (fun c' hc' => hall c' (List.mem_cons_of_mem _ hc'))
        (WellFormed_step s sm c hwf hstep) hcm hrest

/-- C8: when every loader used makes the resource present exactly when it reports success
(the unload side, `DX8_UnloadTexture`, clears the resource), then in every state reached
from the empty cache (with any override table) by `LoadTexture`, `UnloadTexture` and `Exit`
calls each slot has `instances = 0` exactly when its resource is absent, and
`instances ≥ 0`. -/
theorem slot_consistency (overrides : List (String × (Rat × Rat))) (cs : List Call)
    (s : TexturesystemClass) (hld : ∀ c ∈ cs, c.Faithful)
    (hrun : run (TexturesystemClass.withOverrides overrides) cs = .ok s) :
    ∀ th ∈ s._loaded_textures, (th.instances = 0 ↔ th.tex = none) ∧ 0 ≤ th.instances := by
  intro th hth
  have hc : Consistent (TexturesystemClass.withOverrides overrides) := by
    intro t ht
    simp [TexturesystemClass.withOverrides, TexturesystemClass.empty] at ht
  exact ⟨Consistent_run cs _ s hld (WellFormed_empty overrides) hc hrun th hth,
    (WellFormed_run cs _ s (WellFormed_empty overrides) hrun).nonneg th hth⟩

theorem loaderOk_faithful : Loader.Faithful loaderOk := by
  intro filename th running
  simp [loaderOk]

theorem loaderFail_faithful : Loader.Faithful loaderFail := by
  intro filename th running
  simp [loaderFail]

/-- C8 on the run that builds the slots with 0, 2 and 5 instances, one load failing. -/
theorem slot_consistency_witness :
    (∀ c ∈ calls025, c.Faithful) ∧
      run (TexturesystemClass.withOverrides []) calls025 = .ok slots025 ∧
      ∀ th ∈ slots025._loaded_textures,
        (th.instances = 0 ↔ th.tex = none) ∧ 0 ≤ th.instances :=
  have hf : ∀ c ∈ calls025, c.Faithful := by
    intro c hc
    simp only [calls025, List.mem_cons, List.mem_singleton, List.not_mem_nil, or_false] at hc
    rcases hc with h | h | h | h | h | h | h | h <;> rw [h] <;>
      first | exact loaderFail_faithful | exact loaderOk_faithful
  ⟨hf, run_calls025, slot_consistency [] calls025 _ hf run_calls025⟩

/-! ## Filling the cache up to the range of `int16_t` -/

theorem mapFind_eq_none {β : Type} (m : List (String × β)) (k : String)
    (h : ∀ e ∈ m, e.1 ≠ k) : mapFind m k = none := by
  induction m with
  | nil => rfl
  | cons e rest ih =>
      obtain ⟨k', v'⟩ := e
      have h1 : k' ≠ k := h (k', v') (List.mem_cons_self _ _)
      simp only [mapFind, h1, if_false]
      exact ih (fun e he => h e (List.mem_cons_of_mem _ he))

theorem mapSet_eq_append {β : Type} (m : List (String × β)) (k : String) (v : β)
    (h : ∀ e ∈ m, e.1 ≠ k) : mapSet m k v = m ++ [(k, v)] := by
  induction m with
  | nil => rfl
  | cons e rest ih =>
      obtain ⟨k', v'⟩ := e
      have h1 : k' ≠ k := h (k', v') (List.mem_cons_self _ _)
      simp only [mapSet, h1, if_false, List.cons_append]
      rw [ih (fun e he => h e (List.mem_cons_of_mem _ he))]

theorem nameOf_ne_empty (i : Nat) : nameOf i ≠ "" := by
  intro h
  have := congrArg String.length h
  simp [nameOf, String.length] at this

theorem nameOf_injective (i j : Nat) (h : nameOf i = nameOf j) : i = j := by
  have := congrArg String.length h
  simpa [nameOf, String.length] using this

theorem filled_keys (n : Nat) : ∀ e ∈ (filled n)._texture_map, e.1 ≠ nameOf n := by
  intro e he
  simp only [filled, List.mem_map, List.mem_range] at he
  obtain ⟨i, hi, rfl⟩ := he
  intro h
  have := nameOf_injective i n h
  omega

theorem filled_length (n : Nat) : (filled n)._loaded_textures.length = n := by
  simp [filled]

/-- One more successful load of a new name takes `filled n` to `filled (n + 1)`. -/
theorem LoadTexture_filled (n : Nat) (hn : n < 32768) :
    LoadTexture loaderOk (nameOf n) (filled n) = .ok ((n : Int), filled (n + 1)) := by
  have hfind := mapFind_eq_none _ _ (filled_keys n)
  have hcap : (filled n)._loaded_textures.length < 32768 := by rw [filled_length]; exact hn
  rw [LoadTexture_new loaderOk (nameOf n) (filled n) (nameOf_ne_empty n) hfind hcap]
  rw [filled_length]
  congr 2
  have hset := mapSet_eq_append _ (nameOf n) (n : Int) (filled_keys n)
  simp only [LoadTexture.commit, hset]
  have hnot : ¬ TextureHandle.new.instances > 0 := by simp [TextureHandle.new]
  rw [acquire_load _ _ _ _ hnot]
  simp [filled, LoadTexture.override, loaderOk, TextureHandle.new, List.range_succ,
    List.replicate_succ']

theorem run_fillCalls (n : Nat) (hn : n ≤ 32768) :
    run TexturesystemClass.empty (fillCalls n) = .ok (filled n) := by
  induction n with
  | zero => rfl
  | succ n ih =>
      have hstep : run (filled n) [Call.LoadTexture (nameOf n) loaderOk]
          = .ok (filled (n + 1)) := by
        simp only [run, step, LoadTexture_filled n (by omega)]
      have := run_append_ok (fillCalls n) _ _ _ _ (ih (by omega)) hstep
      simpa [fillCalls, List.range_succ] using this

theorem filled_reachable (n : Nat) (hn : n ≤ 32768) : Reachable (filled n) :=
  ⟨[], fillCalls n, run_fillCalls n hn⟩

/-! ## A failed load -/

theorem resolve_texture_map (filename : String) (s s1 : TexturesystemClass) (idx : Int)
    (hres : LoadTexture.resolve filename s = (idx, s1)) (hidx : idx ≠ -1) :
    mapFind s1._texture_map filename = some idx := by
  unfold LoadTexture.resolve at hres
  cases hfind : mapFind s._texture_map filename with
  | some v =>
      rw [hfind] at hres
      by_cases hv : v = -1
      · subst hv
        simp only [if_true] at hres
        cases hres
        exact mapFind_mapSet_same _ _ _
      · simp only [hv, if_false] at hres
        cases hres
        exact hfind
  | none =>
      rw [hfind] at hres
      simp only [if_true] at hres
      cases hres
      exact mapFind_mapSet_same _ _ _

theorem resolve_unloadCalls (filename : String) (s : TexturesystemClass) :
    (LoadTexture.resolve filename s).2.unloadCalls = s.unloadCalls := by
  unfold LoadTexture.resolve
  dsimp only
  split <;> rfl

theorem resolve_loadCalls (filename : String) (s : TexturesystemClass) :
    (LoadTexture.resolve filename s).2.loadCalls = s.loadCalls := by
  unfold LoadTexture.resolve
  dsimp only
  split <;> rfl

/-- C6: a call `LoadTexture(name)`, `name` non-empty, that finds the slot of the name (the
one lines 61-86 resolve, at index `idx ≥ 0`) with `instances = 0` and whose loader reports
failure: the call returns `idx`, which is not -1; the slot still has `instances = 0`; no
backend unload call is made; the loader was called once; and a following
`LoadTexture(name)`, whatever its loader does, returns the same `idx` and calls the loader
again. -/
theorem LoadTexture_failed_load (ld ld2 : Loader) (filename : String)
    (s s1 : TexturesystemClass) (idx : Int) (th : TextureHandle) (hne : filename ≠ "")
    (hres : LoadTexture.resolve filename s = (idx, s1)) (hidx : 0 ≤ idx)
    (hth : s1._loaded_textures[idx.toNat]? = some th) (h0 : th.instances = 0)
    (hfail : (ld filename th s1.GameRunning).success = false) :
    ∃ s2 th2 s3,
      LoadTexture ld filename s = .ok (idx, s2) ∧ idx ≠ -1 ∧
        s2._loaded_textures[idx.toNat]? = some th2 ∧ th2.instances = 0 ∧
        s2.unloadCalls = s.unloadCalls ∧ s2.loadCalls = s.loadCalls ++ [filename] ∧
        LoadTexture ld2 filename s2 = .ok (idx, s3) ∧
        s3.loadCalls = s2.loadCalls ++ [filename] := by
  have hlt := getElem?_lt_length _ _ _ hth
  have hnot : ¬ th.instances > 0 := by omega
  have hs1u : s1.unloadCalls = s.unloadCalls := by
    have := resolve_unloadCalls filename s
    rw [hres] at this
    exact this
  have hs1l : s1.loadCalls = s.loadCalls := by
    have := resolve_loadCalls filename s
    rw [hres] at this
    exact this
  have hfind : mapFind s1._texture_map filename = some idx :=
    resolve_texture_map filename s s1 idx hres (by omega)
  -- the slot after the failed load
  have hth2 : (LoadTexture.commit ld filename idx.toNat th s1)._loaded_textures[idx.toNat]?
      = some (LoadTexture.override filename (LoadTexture.acquire ld filename th s1).1 s1) := by
    simp only [LoadTexture.commit, List.getElem?_set_self hlt]
  have hinst : (LoadTexture.override filename
      (LoadTexture.acquire ld filename th s1).1 s1).instances = 0 := by
    rw [override_instances, acquire_load ld filename th s1 hnot]
    simp [hfail]
  have hlog : (LoadTexture.commit ld filename idx.toNat th s1).loadCalls
      = s.loadCalls ++ [filename] := by
    simp only [LoadTexture.commit, acquire_load ld filename th s1 hnot, hs1l]
  -- the following call
  have hres2 : LoadTexture.resolve filename (LoadTexture.commit ld filename idx.toNat th s1)
      = (idx, LoadTexture.commit ld filename idx.toNat th s1) :=
    resolve_hit filename _ idx (by rw [commit_texture_map]; exact hfind) (by omega)
  have hnot2 : ¬ (LoadTexture.override filename
      (LoadTexture.acquire ld filename th s1).1 s1).instances > 0 := by omega
  refine ⟨_, _, _, LoadTexture_ok_commit ld filename s s1 idx th hne hres hidx hth,
    by omega, hth2, hinst, hs1u, hlog,
    LoadTexture_ok_commit ld2 filename _ _ idx _ hne hres2 hidx hth2, ?_⟩
  simp only [LoadTexture.commit, acquire_load ld2 filename _ _ hnot2]

/-- C6 on the empty cache: a failed load of "a" returns index 0 and leaves slot 0 empty;
loading "a" again returns 0 and calls the loader a second time. -/
theorem LoadTexture_failed_load_witness :
    ∃ s2 th2 s3,
      LoadTexture loaderFail "a" TexturesystemClass.empty = .ok (0, s2) ∧ (0 : Int) ≠ -1 ∧
        s2._loaded_textures[(0 : Int).toNat]? = some th2 ∧ th2.instances = 0 ∧
        s2.unloadCalls = TexturesystemClass.empty.unloadCalls ∧
        s2.loadCalls = TexturesystemClass.empty.loadCalls ++ ["a"] ∧
        LoadTexture loaderOk "a" s2 = .ok (0, s3) ∧ s3.loadCalls = s2.loadCalls ++ ["a"] :=
  LoadTexture_failed_load loaderFail loaderOk "a" TexturesystemClass.empty
    (LoadTexture.resolve "a" TexturesystemClass.empty).2 0 TextureHandle.new
    (by decide) rfl (by decide) rfl rfl rfl

/-! ## Slot indices -/

theorem LoadTexture_texture_map (ld : Loader) (filename : String) (s s1 : TexturesystemClass)
    (idx : Int) (hwf : WellFormed s) (hne : filename ≠ "")
    (h : LoadTexture ld filename s = .ok (idx, s1)) :
    mapFind s1._texture_map filename = some idx := by
  rcases LoadTexture_cases ld filename s hwf hne with
    ⟨i, th, hfind, _, _, hld⟩ | ⟨hfind, hcap, hld⟩ | ⟨_, _, f, hld⟩
  · rw [hld] at h
    cases h
    rw [commit_texture_map]
    exact hfind
  · rw [hld] at h
    cases h
    rw [commit_texture_map]
    exact mapFind_mapSet_same _ _ _
  · rw [hld] at h
    cases h

/-- Within the range of `int16_t`: two calls of `LoadTexture` that return, with any calls
in between (full release and `Exit` included), return the same index exactly when they are
given the same name. -/
theorem LoadTexture_index_iff (s s1 s2 s3 : TexturesystemClass) (a b : String)
    (lda ldb : Loader) (cs : List Call) (i j : Int) (hr : Reachable s)
    (ha : a ≠ "") (hb : b ≠ "")
    (h1 : LoadTexture lda a s = .ok (i, s1)) (h2 : run s1 cs = .ok s2)
    (h3 : LoadTexture ldb b s2 = .ok (j, s3)) : i = j ↔ a = b := by
  have hwf := Reachable_wellFormed s hr
  have hwf1 := WellFormed_LoadTexture lda a s s1 i hwf h1
  have hwf2 := WellFormed_run cs s1 s2 hwf1 h2
  have hwf3 := WellFormed_LoadTexture ldb b s2 s3 j hwf2 h3
  have ma1 : mapFind s1._texture_map a = some i := LoadTexture_texture_map lda a s s1 i hwf ha h1
  have ma2 : mapFind s2._texture_map a = some i := (run_append_only cs s1 s2 hwf1 h2).2.1 a i ma1
  have ma3 : mapFind s3._texture_map a = some i :=
    (LoadTexture_append_only ldb b s2 s3 j hwf2 h3).2 a i ma2
  have mb3 : mapFind s3._texture_map b = some j :=
    LoadTexture_texture_map ldb b s2 s3 j hwf2 hb h3
  constructor
  · intro hij
    subst hij
    exact hwf3.inj a b i ma3 mb3
  · intro hab
    subst hab
    rw [ma3] at mb3
    cases mb3
    rfl

/-- A new name is given a slot as long as fewer than 32768 slots exist, and a known name
always gets its index back: in these cases `LoadTexture` returns. -/
theorem LoadTexture_returns (ld : Loader) (filename : String) (s : TexturesystemClass)
    (hr : Reachable s)
    (h : s._loaded_textures.length < 32768 ∨ mapFind s._texture_map filename ≠ none) :
    ∃ idx s1, LoadTexture ld filename s = .ok (idx, s1) := by
  have hwf := Reachable_wellFormed s hr
  by_cases hne : filename = ""
  · subst hne
    exact ⟨-1, s, LoadTexture_of_empty ld s⟩
  · rcases LoadTexture_cases ld filename s hwf hne with
      ⟨i, th, _, _, _, hld⟩ | ⟨_, _, hld⟩ | ⟨hfind, hcap, _⟩
    · exact ⟨_, _, hld⟩
    · exact ⟨_, _, hld⟩
    · rcases h with h | h
      · omega
      · exact absurd hfind h

theorem filled_keys_ge (n m : Nat) (h : n ≤ m) :
    ∀ e ∈ (filled n)._texture_map, e.1 ≠ nameOf m := by
  intro e he
  simp only [filled, List.mem_map, List.mem_range] at he
  obtain ⟨i, hi, rfl⟩ := he
  intro heq
  have := nameOf_injective i m heq
  omega

theorem filled_find_zero (n : Nat) (hn : 0 < n) :
    mapFind (filled n)._texture_map (nameOf 0) = some 0 := by
  obtain ⟨m, rfl⟩ : ∃ m, n = m + 1 := ⟨n - 1, by omega⟩
  simp [filled, List.range_succ_eq_map, mapFind]

/-- What lines 61-88 do with a new name in a cache of exactly 32768 slots. -/
theorem LoadTexture_overflow (ld : Loader) (filename : String) (s : TexturesystemClass)
    (hne : filename ≠ "") (hfind : mapFind s._texture_map filename = none)
    (hcap : s._loaded_textures.length = 32768) :
    (LoadTexture.resolve filename s).1 = -32768 ∧
      mapFind (LoadTexture.resolve filename s).2._texture_map filename = some (-32768) ∧
      (LoadTexture.resolve filename s).2._loaded_textures.length = 32769 ∧
      ∃ f, LoadTexture ld filename s = .error f ∧ f.idx = -32768 ∧
        mapFind f.state._texture_map filename = some (-32768) := by
  have hres := resolve_miss filename s hfind
  have h16 : toInt16 s._loaded_textures.length = -32768 := by rw [hcap]; decide
  rw [h16] at hres
  rw [hres]
  refine ⟨rfl, mapFind_mapSet_same _ _ _, by simp [hcap], ?_⟩
  exact ⟨_, LoadTexture_full ld filename s hne hfind hcap, rfl, mapFind_mapSet_same _ _ _⟩

/-- C9: the cache that holds 32768 names is reached by 32768 successful loads from the empty
cache; `LoadTexture` of one more (non-empty, new) name computes the index
`int16_t(32768) = -32768`, stores it in `_texture_map` although it is negative, and then
evaluates `_loaded_textures[-32768]`, so the call has no defined result. -/
theorem texture_map_index_overflow :
    Reachable (filled 32768) ∧ nameOf 32768 ≠ "" ∧
      (LoadTexture.resolve (nameOf 32768) (filled 32768)).1 = -32768 ∧
      mapFind (LoadTexture.resolve (nameOf 32768) (filled 32768)).2._texture_map
        (nameOf 32768) = some (-32768) ∧
      (LoadTexture.resolve (nameOf 32768) (filled 32768)).2._loaded_textures.length = 32769 ∧
      ∃ f, LoadTexture loaderOk (nameOf 32768) (filled 32768) = .error f ∧ f.idx = -32768 ∧
        mapFind f.state._texture_map (nameOf 32768) = some (-32768) :=
  ⟨filled_reachable 32768 (le_refl _), nameOf_ne_empty _,
    LoadTexture_overflow loaderOk (nameOf 32768) (filled 32768) (nameOf_ne_empty _)
      (mapFind_eq_none _ _ (filled_keys 32768)) (filled_length _)⟩

/-- C5: in the reachable cache that holds 32768 names, `LoadTexture` returns no index for a
name it has not seen, whatever the loader: neither of two new distinct names gets a slot
index (while a name already known still gets the index assigned to it at its first load). -/
theorem LoadTexture_no_index_when_full :
    Reachable (filled 32768) ∧ nameOf 32768 ≠ nameOf 32769 ∧
      (∀ (ld : Loader) (filename : String), filename ≠ "" →
        mapFind (filled 32768)._texture_map filename = none →
        ∃ f, LoadTexture ld filename (filled 32768) = .error f) ∧
      (∃ f, LoadTexture loaderOk (nameOf 32768) (filled 32768) = .error f) ∧
      (∃ f, LoadTexture loaderOk (nameOf 32769) (filled 32768) = .error f) ∧
      (∃ s1, LoadTexture loaderOk (nameOf 0) (filled 32768) = .ok (0, s1)) :=
  have hall : ∀ (ld : Loader) (filename : String), filename ≠ "" →
      mapFind (filled 32768)._texture_map filename = none →
      ∃ f, LoadTexture ld filename (filled 32768) = .error f :=
    fun ld filename hne hfind =>
      ⟨_, LoadTexture_full ld filename _ hne hfind (filled_length _)⟩
  have hwf := Reachable_wellFormed _ (filled_reachable 32768 (le_refl _))
  have hknown := LoadTexture_known loaderOk (nameOf 0) _ 0 hwf (nameOf_ne_empty 0)
    (filled_find_zero 32768 (by omega))
  ⟨filled_reachable 32768 (le_refl _),
    fun h => absurd (nameOf_injective _ _ h) (by omega),
    hall,
    hall loaderOk _ (nameOf_ne_empty _)
      (mapFind_eq_none _ _ (filled_keys_ge 32768 32768 (le_refl _))),
    hall loaderOk _ (nameOf_ne_empty _)
      (mapFind_eq_none _ _ (filled_keys_ge 32768 32769 (by omega))),
    hknown.elim fun _ h => ⟨_, h.2⟩⟩

/-! ## De-duplication -/

theorem UnloadTexture_loadCalls (idx : Int) (s : TexturesystemClass) :
    (UnloadTexture idx s).loadCalls = s.loadCalls := by
  rcases UnloadTexture_cases idx s with h | ⟨th, _, _, ⟨_, h⟩ | ⟨_, h⟩⟩ <;> rw [h]

theorem Exit_loadCalls (s : TexturesystemClass) : (Exit s).loadCalls = s.loadCalls := by
  rw [Exit_eq]

theorem commit_loadCalls (ld : Loader) (filename : String) (i : Nat) (th : TextureHandle)
    (s : TexturesystemClass) :
    (LoadTexture.commit ld filename i th s).loadCalls =
      if th.instances > 0 then s.loadCalls else s.loadCalls ++ [filename] := by
  by_cases h : th.instances > 0
  · simp only [LoadTexture.commit, acquire_resident ld filename th s h, h, if_true]
  · simp only [LoadTexture.commit, acquire_load ld filename th s h, h, if_false]

theorem count_append_singleton (l : List String) (a b : String) :
    (l ++ [b]).count a = l.count a + (if b = a then 1 else 0) := by
  rw [List.count_append, List.count_singleton]
  by_cases h : b = a
  · simp [h]
  · have : ¬ (b == a) = true := by simpa using h
    simp [h, this]

/-- One call adds one loader invocation for `filename` exactly when it is a
`LoadTexture(filename)` call made while the slot is empty or missing. -/
theorem step_loadCalls (s s1 : TexturesystemClass) (c : Call) (filename : String)
    (hwf : WellFormed s) (hne : filename ≠ "") (h : step s c = .ok s1) :
    s1.loadCalls.count filename = s.loadCalls.count filename + coldCall filename s c := by
  cases c with
  | LoadTexture f ld =>
      obtain ⟨idx, hl⟩ := step_LoadTexture_ok s s1 f ld h
      by_cases hf : f = ""
      · subst hf
        rw [LoadTexture_of_empty] at hl
        cases hl
        have : ¬ "" = filename := fun h => hne h.symm
        simp [coldCall, this]
      · rcases LoadTexture_cases ld f s hwf hf with
          ⟨i, th, hfind, hth, hi, hld⟩ | ⟨hfind, hcap, hld⟩ | ⟨_, _, e, hld⟩
        · rw [hld] at hl
          cases hl
          rw [commit_loadCalls]
          have hnn := hwf.nonneg th (List.getElem?_mem hth)
          by_cases hfn : f = filename
          · subst hfn
            have hcold : coldFor f s = decide (th.instances = 0) := by
              simp [coldFor, hfind, hi, hth]
            by_cases hpos : th.instances > 0
            · have : ¬ th.instances = 0 := by omega
              simp [coldCall, hpos, hcold, this]
            · have : th.instances = 0 := by omega
              simp only [hpos, if_false]
              rw [count_append_singleton]
              simp [coldCall, hcold, this]
          · by_cases hpos : th.instances > 0
            · simp [coldCall, hpos, hfn]
            · simp only [hpos, if_false]
              rw [count_append_singleton]
              simp [coldCall, hfn]
        · rw [hld] at hl
          cases hl
          rw [commit_loadCalls]
          have hnew : ¬ TextureHandle.new.instances > 0 := by simp [TextureHandle.new]
          simp only [hnew, if_false]
          rw [count_append_singleton]
          by_cases hfn : f = filename
          · subst hfn
            simp [coldCall, coldFor, hfind]
          · simp [coldCall, hfn]
        · rw [hld] at hl
          cases hl
  | UnloadTexture idx =>
      simp only [step] at h
      cases h
      simp [coldCall, UnloadTexture_loadCalls]
  | Exit =>
      simp only [step] at h
      cases h
      simp [coldCall, Exit_loadCalls]

theorem run_loadCalls (cs : List Call) :
    ∀ (s s1 : TexturesystemClass) (filename : String), WellFormed s → filename ≠ "" →
      run s cs = .ok s1 →
      s1.loadCalls.count filename = s.loadCalls.count filename + coldCalls filename s cs := by
  induction cs with
  | nil =>
      intro s s1 filename _ _ h
      simp only [run] at h
      cases h
      simp [coldCalls]
  | cons c cs ih =>
      intro s s1 filename hwf hne h
      obtain ⟨sm, hstep, hrest⟩ := run_cons_ok s s1 c cs h
      have h1 := step_loadCalls s sm c filename hwf hne hstep
      have h2 := ih sm s1 filename (WellFormed_step s sm c hwf hstep) hne hrest
      have hc : coldCalls filename s (c :: cs)
          = coldCall filename s c + coldCalls filename sm cs := by
        simp only [coldCalls, hstep]
      rw [h2, h1, hc]
      omega

/-- A call can be run in a well-formed cache with fewer than 32768 slots, and it adds at
most one slot. -/
theorem step_defined (s : TexturesystemClass) (c : Call) (hwf : WellFormed s)
    (hcap : s._loaded_textures.length < 32768) :
    ∃ s1, step s c = .ok s1 ∧ s1._loaded_textures.length ≤ s._loaded_textures.length + 1 := by
  cases c with
  | LoadTexture f ld =>
      by_cases hf : f = ""
      · subst hf
        exact ⟨s, by simp [step, LoadTexture_of_empty], by omega⟩
      · rcases LoadTexture_cases ld f s hwf hf with
          ⟨i, th, _, _, _, hld⟩ | ⟨_, _, hld⟩ | ⟨_, hfull, _⟩
        · have hs : step s (.LoadTexture f ld)
              = .ok (LoadTexture.commit ld f i.toNat th s) := by simp only [step, hld]
          exact ⟨_, hs, by rw [commit_length]; omega⟩
        · have hs : step s (.LoadTexture f ld)
              = .ok (LoadTexture.commit ld f s._loaded_textures.length TextureHandle.new
                  { s with
                    _loaded_textures := s._loaded_textures ++ [TextureHandle.new]
                    _texture_map :=
                      mapSet s._texture_map f (s._loaded_textures.length : Int) }) := by
            simp only [step, hld]
          exact ⟨_, hs, by rw [commit_length]; simp⟩
        · omega
  | UnloadTexture idx =>
      exact ⟨_, rfl, by rw [UnloadTexture_length]; omega⟩
  | Exit =>
      exact ⟨_, rfl, by rw [Exit_length]; omega⟩

theorem run_defined (cs : List Call) :
    ∀ (s : TexturesystemClass), WellFormed s →
      s._loaded_textures.length + cs.length ≤ 32768 → ∃ s1, run s cs = .ok s1 := by
  induction cs with
  | nil => intro s _ _; exact ⟨s, rfl⟩
  | cons c cs ih =>
      intro s hwf hcap
      simp only [List.length_cons] at hcap
      obtain ⟨sm, hstep, hlen⟩ := step_defined s c hwf (by omega)
      obtain ⟨s1, hrun⟩ := ih sm (WellFormed_step s sm c hwf hstep) (by omega)
      exact ⟨s1, by simp only [run, hstep, hrun]⟩

/-- C1, amended: from a state the cache can reach and for a non-empty name, every call
sequence that runs without fault (every sequence does while slots and calls together stay
within the 32768 indices of `int16_t`) invokes the loader for that name exactly as often as
it contains `LoadTexture(name)` calls made while the slot of the name had `instances == 0`
or did not exist yet; and a `LoadTexture(name)` call that finds the slot with
`instances > 0` does not invoke the loader, adds exactly 1 to `instances`, keeps the
resource and returns the index of the slot. -/
theorem LoadTexture_dedup (s : TexturesystemClass) (filename : String) (hr : Reachable s)
    (hne : filename ≠ "") :
    (∀ cs : List Call, s._loaded_textures.length + cs.length ≤ 32768 →
        ∃ s1, run s cs = .ok s1) ∧
      (∀ (cs : List Call) (s1 : TexturesystemClass), run s cs = .ok s1 →
        s1.loadCalls.count filename
          = s.loadCalls.count filename + coldCalls filename s cs) ∧
      (∀ (ld : Loader) (i : Int) (th : TextureHandle),
        mapFind s._texture_map filename = some i →
        s._loaded_textures[i.toNat]? = some th → th.instances > 0 →
        ∃ s1 th1, LoadTexture ld filename s = .ok (i, s1) ∧
          s1.loadCalls = s.loadCalls ∧ s1.unloadCalls = s.unloadCalls ∧
          s1._loaded_textures[i.toNat]? = some th1 ∧
          th1.instances = th.instances + 1 ∧ th1.tex = th.tex) := by
  have hwf := Reachable_wellFormed s hr
  refine ⟨fun cs hcap => run_defined cs s hwf hcap,
    fun cs s1 hrun => run_loadCalls cs s s1 filename hwf hne hrun, ?_⟩
  intro ld i th hfind hth hpos
  obtain ⟨th', hth', hld⟩ := LoadTexture_known ld filename s i hwf hne hfind
  rw [hth] at hth'
  cases hth'
  have hlt := getElem?_lt_length _ _ _ hth
  refine ⟨LoadTexture.commit ld filename i.toNat th s,
    LoadTexture.override filename (LoadTexture.acquire ld filename th s).1 s,
    hld, ?_, rfl, ?_, ?_, ?_⟩
  · rw [commit_loadCalls]; simp [hpos]
  · simp only [LoadTexture.commit, List.getElem?_set_self hlt]
  · rw [override_instances, acquire_resident ld filename th s hpos]
  · rw [override_tex, acquire_resident ld filename th s hpos]

/-- C1 as stated fails for the empty name: `LoadTexture("")` on the empty cache is a call
made while the name has no slot, and it does not invoke the loader. -/
theorem LoadTexture_dedup_counterexample :
    Reachable TexturesystemClass.empty ∧
      run TexturesystemClass.empty [Call.LoadTexture "" loaderOk]
        = .ok TexturesystemClass.empty ∧
      coldCalls "" TexturesystemClass.empty [Call.LoadTexture "" loaderOk] = 1 ∧
      ¬ (TexturesystemClass.empty.loadCalls.count ""
          = TexturesystemClass.empty.loadCalls.count ""
            + coldCalls "" TexturesystemClass.empty [Call.LoadTexture "" loaderOk]) :=
  ⟨⟨[], [], rfl⟩, rfl, by decide, by decide⟩

/-- C1 (amended) on the run that loads "a" (failing), "b" twice and "c" five times: three
loader invocations in all, one for "c", and a sixth `LoadTexture("c")` makes none. -/
theorem LoadTexture_dedup_witness :
    Reachable TexturesystemClass.empty ∧ "c" ≠ "" ∧
      slots025.loadCalls.count "c"
        = TexturesystemClass.empty.loadCalls.count "c"
          + coldCalls "c" TexturesystemClass.empty calls025 ∧
      coldCalls "c" TexturesystemClass.empty calls025 = 1 :=
  ⟨⟨[], [], rfl⟩, by decide,
    (LoadTexture_dedup TexturesystemClass.empty "c" ⟨[], [], rfl⟩ (by decide)).2.1
      calls025 slots025 run_calls025,
    by decide⟩

/-! ## Scale factor overrides at `LoadTexture` -/

/-- A call of `LoadTexture` with a non-empty name that returns has resolved a slot inside
the vector and committed the handle of that slot. -/
theorem LoadTexture_ok_inv (ld : Loader) (filename : String) (s s1 : TexturesystemClass)
    (idx : Int) (hne : filename ≠ "") (h : LoadTexture ld filename s = .ok (idx, s1)) :
    (LoadTexture.resolve filename s).1 = idx ∧ 0 ≤ idx ∧
      ∃ th, (LoadTexture.resolve filename s).2._loaded_textures[idx.toNat]? = some th ∧
        s1 = LoadTexture.commit ld filename idx.toNat th (LoadTexture.resolve filename s).2 := by
  obtain ⟨i, r, hres⟩ : ∃ i r, LoadTexture.resolve filename s = (i, r) := ⟨_, _, rfl⟩
  rw [hres]
  by_cases hr : i < 0 ∨ (r._loaded_textures.length : Int) ≤ i
  · rw [LoadTexture_fault ld filename s r i hne hres hr] at h
    cases h
  · have hlt : i.toNat < r._loaded_textures.length := by omega
    have hget : r._loaded_textures[i.toNat]? = some r._loaded_textures[i.toNat] := by
      simp [hlt]
    rw [LoadTexture_ok_commit ld filename s r i _ hne hres (by omega) hget] at h
    cases h
    exact ⟨rfl, by omega, _, hget, rfl⟩

theorem resolve_scalefactors_map (filename : String) (s : TexturesystemClass) :
    (LoadTexture.resolve filename s).2._scalefactors_map = s._scalefactors_map := by
  unfold LoadTexture.resolve
  dsimp only
  split <;> rfl

theorem resolve_GameRunning (filename : String) (s : TexturesystemClass) :
    (LoadTexture.resolve filename s).2.GameRunning = s.GameRunning := by
  unfold LoadTexture.resolve
  dsimp only
  split <;> rfl

theorem override_found (filename : String) (th : TextureHandle) (s : TexturesystemClass)
    (p : Rat × Rat)
    (h : mapFind s._scalefactors_map (ReplaceAll filename ".png" "") = some p) :
    LoadTexture.override filename th s = { th with npot_scalex := p.1, npot_scaley := p.2 } := by
  have hne : s._scalefactors_map ≠ [] := by
    intro hnil
    rw [hnil] at h
    simp [mapFind] at h
  simp [LoadTexture.override, hne, h]

theorem override_missing (filename : String) (th : TextureHandle) (s : TexturesystemClass)
    (h : mapFind s._scalefactors_map (ReplaceAll filename ".png" "") = none) :
    LoadTexture.override filename th s = th := by
  unfold LoadTexture.override
  split
  · rw [h]
  · rfl

theorem LoadTexture_override_value_aux (ld : Loader) (filename : String)
    (s s1 : TexturesystemClass) (idx : Int) (hne : filename ≠ "")
    (h : LoadTexture ld filename s = .ok (idx, s1)) :
    s1._scalefactors_map = s._scalefactors_map := by
  obtain ⟨_, _, th, _, hs1⟩ := LoadTexture_ok_inv ld filename s s1 idx hne h
  rw [hs1]
  exact resolve_scalefactors_map filename s

/-- C11: after `LoadTexture(filename)`, `filename` non-empty, has returned `idx`: when
`_scalefactors_map` has an entry for `ReplaceAll(filename, ".png", "")`, the scale factors
of slot `idx` are the pair of that entry; when it has none, they are the values the load
step (lines 90-106: the reference count or the loader) left in the handle. The call does
not change `_scalefactors_map`. -/
theorem LoadTexture_override_value (ld : Loader) (filename : String)
    (s s1 : TexturesystemClass) (idx : Int) (hne : filename ≠ "")
    (h : LoadTexture ld filename s = .ok (idx, s1)) :
    s1._scalefactors_map = s._scalefactors_map ∧
      ∃ th th1,
        (LoadTexture.resolve filename s).2._loaded_textures[idx.toNat]? = some th ∧
        s1._loaded_textures[idx.toNat]? = some th1 ∧
        (∀ p, mapFind s._scalefactors_map (ReplaceAll filename ".png" "") = some p →
          (th1.npot_scalex, th1.npot_scaley) = p) ∧
        (mapFind s._scalefactors_map (ReplaceAll filename ".png" "") = none →
          th1.npot_scalex =
              (LoadTexture.acquire ld filename th
                (LoadTexture.resolve filename s).2).1.npot_scalex ∧
            th1.npot_scaley =
              (LoadTexture.acquire ld filename th
                (LoadTexture.resolve filename s).2).1.npot_scaley) := by
  obtain ⟨_, hidx, th, hth, hs1⟩ := LoadTexture_ok_inv ld filename s s1 idx hne h
  have hlt := getElem?_lt_length _ _ _ hth
  have hsf := resolve_scalefactors_map filename s
  refine ⟨by rw [hs1]; exact hsf, th,
    LoadTexture.override filename
      (LoadTexture.acquire ld filename th (LoadTexture.resolve filename s).2).1
      (LoadTexture.resolve filename s).2, hth, ?_, ?_, ?_⟩
  · rw [hs1]
    simp only [LoadTexture.commit, List.getElem?_set_self hlt]
  · intro p hp
    rw [← hsf] at hp
    rw [override_found filename _ _ p hp]
  · intro hp
    rw [← hsf] at hp
    rw [override_missing filename _ _ hp]
    exact ⟨rfl, rfl⟩

/-- C11 on a first load of "a.png" with the override table holding ("a", 2, 4): the new
slot 0 carries the factors 2 and 4. -/
theorem LoadTexture_override_value_witness :
    ∃ s1 th1,
      LoadTexture loaderOk "a.png" (TexturesystemClass.withOverrides [("a", (2, 4))])
        = .ok (0, s1) ∧
      s1._loaded_textures[(0 : Int).toNat]? = some th1 ∧
      (th1.npot_scalex, th1.npot_scaley) = ((2 : Rat), (4 : Rat)) := by
  have h : LoadTexture loaderOk "a.png" (TexturesystemClass.withOverrides [("a", (2, 4))])
      = .ok (0, (LoadTexture.commit loaderOk "a.png" 0 TextureHandle.new
          (LoadTexture.resolve "a.png"
            (TexturesystemClass.withOverrides [("a", (2, 4))])).2)) := rfl
  obtain ⟨_, _, th1, _, h1, h2, _⟩ :=
    LoadTexture_override_value loaderOk "a.png" _ _ 0 (by decide) h
  exact ⟨_, th1, h, h1, h2 (2, 4) rfl⟩

/-- The call on a resident slot: no faults, no loader, and the override step decides the
scale factors. -/
theorem LoadTexture_resident (ld : Loader) (filename : String) (s : TexturesystemClass)
    (i : Int) (th : TextureHandle) (hne : filename ≠ "")
    (hfind : mapFind s._texture_map filename = some i) (hi : 0 ≤ i)
    (hth : s._loaded_textures[i.toNat]? = some th) (hpos : th.instances > 0) :
    LoadTexture ld filename s = .ok (i, LoadTexture.commit ld filename i.toNat th s) ∧
      (LoadTexture.commit ld filename i.toNat th s).loadCalls = s.loadCalls ∧
      (LoadTexture.commit ld filename i.toNat th s).GameRunning = s.GameRunning ∧
      (LoadTexture.commit ld filename i.toNat th s)._loaded_textures[i.toNat]?
        = some (LoadTexture.override filename { th with instances := th.instances + 1 } s) := by
  have hlt := getElem?_lt_length _ _ _ hth
  refine ⟨LoadTexture_ok_commit ld filename s s i th hne
    (resolve_hit filename s i hfind (by omega)) hi hth, ?_, ?_, ?_⟩
  · rw [commit_loadCalls]; simp [hpos]
  · simp only [LoadTexture.commit, acquire_resident ld filename th s hpos]
  · simp only [LoadTexture.commit, List.getElem?_set_self hlt,
      acquire_resident ld filename th s hpos]

/-- C12, amended: a `LoadTexture(name)` call that finds the slot resident
(`instances > 0`) performs no load; it leaves the scale factors of the slot as they were
when `_scalefactors_map` has no entry for the name without ".png" at the time of the
call, and sets them to the pair of that entry when it has one. -/
theorem LoadTexture_resident_override (ld : Loader) (filename : String)
    (s : TexturesystemClass) (i : Int) (th : TextureHandle) (hne : filename ≠ "")
    (hfind : mapFind s._texture_map filename = some i) (hi : 0 ≤ i)
    (hth : s._loaded_textures[i.toNat]? = some th) (hpos : th.instances > 0) :
    ∃ s1 th1,
      LoadTexture ld filename s = .ok (i, s1) ∧ s1.loadCalls = s.loadCalls ∧
        s1._loaded_textures[i.toNat]? = some th1 ∧
        (mapFind s._scalefactors_map (ReplaceAll filename ".png" "") = none →
          th1.npot_scalex = th.npot_scalex ∧ th1.npot_scaley = th.npot_scaley) ∧
        (∀ p, mapFind s._scalefactors_map (ReplaceAll filename ".png" "") = some p →
          th1.npot_scalex = p.1 ∧ th1.npot_scaley = p.2) := by
  obtain ⟨h1, h2, _, h4⟩ := LoadTexture_resident ld filename s i th hne hfind hi hth hpos
  refine ⟨_, _, h1, h2, h4, ?_, ?_⟩
  · intro hp
    rw [override_missing filename _ s hp]
    exact ⟨rfl, rfl⟩
  · intro p hp
    rw [override_found filename _ s p hp]
    exact ⟨rfl, rfl⟩

/-- C12 as stated fails: "a.png" is loaded with factors 1 and 1, then a scale factor file
that holds ("a", 2, 4) is read; the next `LoadTexture("a.png")` finds the slot resident,
performs no load, and changes its factors to 2 and 4. -/
theorem LoadTexture_resident_override_counterexample :
    LoadTexture loaderOk "a.png" TexturesystemClass.empty = .ok (0, oneTexture) ∧
      ∃ th s1 th1,
        (ReadScaleFactorsFile (some [⟨"a", 2, 4⟩]) oneTexture)._loaded_textures[0]? = some th ∧
        th.instances > 0 ∧
        LoadTexture loaderOk "a.png" (ReadScaleFactorsFile (some [⟨"a", 2, 4⟩]) oneTexture)
          = .ok (0, s1) ∧
        s1.loadCalls = (ReadScaleFactorsFile (some [⟨"a", 2, 4⟩]) oneTexture).loadCalls ∧
        s1._loaded_textures[0]? = some th1 ∧
        th1.npot_scalex ≠ th.npot_scalex ∧ th1.npot_scaley ≠ th.npot_scaley :=
  ⟨rfl,
    { tex := some 7, instances := 1, npot_scalex := 1, npot_scaley := 1 }, _,
    { tex := some 7, instances := 2, npot_scalex := 2, npot_scaley := 4 },
    rfl, by decide, rfl, rfl, rfl, by decide, by decide⟩

/-- C12 (amended) on the cache that holds "a.png" resident: with no override the factors
stay 1 and 1, and after ("a", 2, 4) was read they become 2 and 4. -/
theorem LoadTexture_resident_override_witness :
    (∃ s1 th1,
        LoadTexture loaderOk "a.png" oneTexture = .ok (0, s1) ∧
          s1._loaded_textures[(0 : Int).toNat]? = some th1 ∧
          th1.npot_scalex = 1 ∧ th1.npot_scaley = 1) ∧
      ∃ s1 th1,
        LoadTexture loaderOk "a.png" (ReadScaleFactorsFile (some [⟨"a", 2, 4⟩]) oneTexture)
          = .ok (0, s1) ∧
          s1._loaded_textures[(0 : Int).toNat]? = some th1 ∧
          th1.npot_scalex = 2 ∧ th1.npot_scaley = 4 := by
  constructor
  · obtain ⟨s1, th1, h1, _, h3, h4, _⟩ :=
      LoadTexture_resident_override loaderOk "a.png" oneTexture 0
        { tex := some 7, instances := 1, npot_scalex := 1, npot_scaley := 1 }
        (by decide) rfl (by decide) rfl (by decide)
    exact ⟨s1, th1, h1, h3, h4 rfl⟩
  · obtain ⟨s1, th1, h1, _, h3, _, h5⟩ :=
      LoadTexture_resident_override loaderOk "a.png"
        (ReadScaleFactorsFile (some [⟨"a", 2, 4⟩]) oneTexture) 0
        { tex := some 7, instances := 1, npot_scalex := 1, npot_scaley := 1 }
        (by decide) rfl (by decide) rfl (by decide)
    exact ⟨s1, th1, h1, h3, h5 (2, 4) rfl⟩

/-! ## Frame of acquire and release -/

theorem UnloadTexture_scalefactors_map (idx : Int) (s : TexturesystemClass) :
    (UnloadTexture idx s)._scalefactors_map = s._scalefactors_map := by
  rcases UnloadTexture_cases idx s with h | ⟨th, _, _, ⟨_, h⟩ | ⟨_, h⟩⟩ <;> rw [h]

theorem UnloadTexture_other_slot (idx : Int) (s : TexturesystemClass) (j : Nat)
    (hj : (j : Int) ≠ idx) :
    (UnloadTexture idx s)._loaded_textures[j]? = s._loaded_textures[j]? := by
  rcases UnloadTexture_cases idx s with h | ⟨th, h0, _, ⟨_, h⟩ | ⟨_, h⟩⟩
  · rw [h]
  · rw [h]
    have : idx.toNat ≠ j := by omega
    simp only [List.getElem?_set_ne this]
  · rw [h]
    have : idx.toNat ≠ j := by omega
    simp only [List.getElem?_set_ne this]

theorem UnloadTexture_scale (idx : Int) (s : TexturesystemClass) (th th1 : TextureHandle)
    (hth : s._loaded_textures[idx.toNat]? = some th)
    (hth1 : (UnloadTexture idx s)._loaded_textures[idx.toNat]? = some th1) :
    th1.npot_scalex = th.npot_scalex ∧ th1.npot_scaley = th.npot_scaley := by
  have hlt := getElem?_lt_length _ _ _ hth
  rcases UnloadTexture_cases idx s with h | ⟨t, h0, ht, ⟨_, h⟩ | ⟨_, h⟩⟩
  · rw [h, hth] at hth1
    cases hth1
    exact ⟨rfl, rfl⟩
  · rw [hth] at ht
    cases ht
    rw [h] at hth1
    simp only [List.getElem?_set_self hlt] at hth1
    cases hth1
    exact ⟨rfl, rfl⟩
  · rw [hth] at ht
    cases ht
    rw [h] at hth1
    simp only [List.getElem?_set_self hlt] at hth1
    cases hth1
    exact ⟨rfl, rfl⟩

theorem LoadTexture_other_slot (ld : Loader) (filename : String) (s s1 : TexturesystemClass)
    (idx : Int) (hwf : WellFormed s) (h : LoadTexture ld filename s = .ok (idx, s1))
    (j : Nat) (hj : (j : Int) ≠ idx) :
    s1._loaded_textures[j]? = s._loaded_textures[j]? := by
  by_cases hne : filename = ""
  · subst hne
    rw [LoadTexture_of_empty] at h
    cases h
    rfl
  · rcases LoadTexture_cases ld filename s hwf hne with
      ⟨i, th, _, _, hi, hld⟩ | ⟨_, _, hld⟩ | ⟨_, _, f, hld⟩
    · rw [hld] at h
      cases h
      have : idx.toNat ≠ j := by omega
      simp only [LoadTexture.commit, List.getElem?_set_ne this]
    · rw [hld] at h
      cases h
      have hjl : s._loaded_textures.length ≠ j := by omega
      simp only [LoadTexture.commit, List.getElem?_set_ne hjl]
      by_cases hlt : j < s._loaded_textures.length
      · rw [List.getElem?_append_left hlt]
      · rw [List.getElem?_eq_none (by simp; omega), List.getElem?_eq_none (by omega)]
    · rw [hld] at h
      cases h

/-- C17: in a state the cache can reach, a `LoadTexture` call that returns `idx` leaves
every slot other than slot `idx` and `_scalefactors_map` as they were; in every cache
state `UnloadTexture(idx)` leaves every slot other than slot `idx` and
`_scalefactors_map` as they were, and the scale factors of slot `idx` too. -/
theorem frame_acquire_release (s : TexturesystemClass) (hr : Reachable s) :
    (∀ (ld : Loader) (filename : String) (idx : Int) (s1 : TexturesystemClass),
        LoadTexture ld filename s = .ok (idx, s1) →
        s1._scalefactors_map = s._scalefactors_map ∧
          ∀ j : Nat, (j : Int) ≠ idx → s1._loaded_textures[j]? = s._loaded_textures[j]?) ∧
      (∀ (t : TexturesystemClass) (idx : Int),
        (UnloadTexture idx t)._scalefactors_map = t._scalefactors_map ∧
          (∀ j : Nat, (j : Int) ≠ idx →
            (UnloadTexture idx t)._loaded_textures[j]? = t._loaded_textures[j]?) ∧
          ∀ th th1, t._loaded_textures[idx.toNat]? = some th →
            (UnloadTexture idx t)._loaded_textures[idx.toNat]? = some th1 →
            th1.npot_scalex = th.npot_scalex ∧ th1.npot_scaley = th.npot_scaley) := by
  have hwf := Reachable_wellFormed s hr
  refine ⟨?_, fun t idx => ⟨UnloadTexture_scalefactors_map idx t,
    fun j hj => UnloadTexture_other_slot idx t j hj,
    fun th th1 h1 h2 => UnloadTexture_scale idx t th th1 h1 h2⟩⟩
  intro ld filename idx s1 h
  refine ⟨?_, fun j hj => LoadTexture_other_slot ld filename s s1 idx hwf h j hj⟩
  by_cases hne : filename = ""
  · subst hne
    rw [LoadTexture_of_empty] at h
    cases h
    rfl
  · exact (LoadTexture_override_value_aux ld filename s s1 idx hne h)

/-- C17 on the cache with three slots: a further load of "b" returns 1 and leaves slot 2
and the override table alone, and so does `UnloadTexture(1)`. -/
theorem frame_acquire_release_witness :
    Reachable slots025 ∧
      (∃ s1, LoadTexture loaderOk "b" slots025 = .ok (1, s1) ∧
        s1._scalefactors_map = slots025._scalefactors_map ∧
        s1._loaded_textures[2]? = slots025._loaded_textures[2]?) ∧
      (UnloadTexture 1 slots025)._loaded_textures[2]? = slots025._loaded_textures[2]? := by
  have hr : Reachable slots025 := ⟨[], calls025, run_calls025⟩
  have h := frame_acquire_release slots025 hr
  have hl : LoadTexture loaderOk "b" slots025
      = .ok (1, LoadTexture.commit loaderOk "b" 1
          { tex := some 7, instances := 2, npot_scalex := 1, npot_scaley := 1 } slots025) := rfl
  exact ⟨hr, ⟨_, hl, (h.1 loaderOk "b" 1 _ hl).1, (h.1 loaderOk "b" 1 _ hl).2 2 (by decide)⟩,
    (h.2 slots025 1).2.1 2 (by decide)⟩

/-! ## The stop-running flag -/

theorem UnloadTexture_GameRunning (idx : Int) (s : TexturesystemClass) :
    (UnloadTexture idx s).GameRunning = s.GameRunning := by
  rcases UnloadTexture_cases idx s with h | ⟨th, _, _, ⟨_, h⟩ | ⟨_, h⟩⟩ <;> rw [h]

theorem UnloadTexture_GameRunning_all (t : TexturesystemClass) (i : Int) :
    (UnloadTexture i t).GameRunning = t.GameRunning :=
  UnloadTexture_GameRunning i t

theorem Exit_GameRunning (s : TexturesystemClass) : (Exit s).GameRunning = s.GameRunning := by
  rw [Exit_eq]

theorem LoadTextureFromFile_failure (w : World) (filename : String) (th : TextureHandle)
    (running : Bool) (r : FileLoad) (hne : filename ≠ "")
    (h : LoadTextureFromFile w filename th running = some r) (hfail : r.success = false) :
    r.GameRunning = false := by
  unfold LoadTextureFromFile at h
  simp only [hne, if_false, stringFromNull] at h
  split at h
  · cases h
  · cases h
    simp only [LoadTextureFromFile.loaded] at hfail ⊢
    simp [hfail]

/-- C18: a `LoadTexture(name)` call that attempts a load (the slot it resolves holds no
instance) and whose loader reports failure leaves `GameRunning` false; a call with the
empty name and a call that finds the slot resident leave `GameRunning` as it was, and so
do `UnloadTexture` and `Exit`. `LoadTextureFromFile` itself, given a non-empty name, never
returns failure without having set `GameRunning` to false. -/
theorem GameRunning_flag (ld : Loader) (filename : String) (s s1 : TexturesystemClass)
    (idx : Int) (th : TextureHandle) (hne : filename ≠ "")
    (hres : LoadTexture.resolve filename s = (idx, s1)) (hidx : 0 ≤ idx)
    (hth : s1._loaded_textures[idx.toNat]? = some th) (hcold : ¬ th.instances > 0)
    (hfail : (ld filename th s1.GameRunning).success = false) :
    (∃ s2, LoadTexture ld filename s = .ok (idx, s2) ∧ s2.GameRunning = false) ∧
      (∀ (ld1 : Loader) (t : TexturesystemClass), LoadTexture ld1 "" t = .ok (-1, t)) ∧
      (∀ (ld1 : Loader) (name : String) (t : TexturesystemClass) (i : Int)
          (t0 : TextureHandle), name ≠ "" → mapFind t._texture_map name = some i → 0 ≤ i →
        t._loaded_textures[i.toNat]? = some t0 → t0.instances > 0 →
        ∃ t1, LoadTexture ld1 name t = .ok (i, t1) ∧ t1.GameRunning = t.GameRunning) ∧
      (∀ (t : TexturesystemClass) (i : Int),
        (UnloadTexture i t).GameRunning = t.GameRunning) ∧
      (∀ t : TexturesystemClass, (Exit t).GameRunning = t.GameRunning) ∧
      (∀ (w : World) (name : String) (t0 : TextureHandle) (running : Bool) (r : FileLoad),
        name ≠ "" → LoadTextureFromFile w name t0 running = some r → r.success = false →
        r.GameRunning = false) := by
  refine ⟨⟨_, LoadTexture_ok_commit ld filename s s1 idx th hne hres hidx hth, ?_⟩,
    fun ld1 t => LoadTexture_of_empty ld1 t, ?_, UnloadTexture_GameRunning_all,
    Exit_GameRunning,
    fun w name t0 running r h1 h2 h3 => LoadTextureFromFile_failure w name t0 running r h1 h2 h3⟩
  · simp only [LoadTexture.commit, acquire_load ld filename th s1 hcold, hfail]
    rfl
  · intro ld1 name t i t0 hn hfind hi ht0 hpos
    obtain ⟨h1, _, h3, _⟩ := LoadTexture_resident ld1 name t i t0 hn hfind hi ht0 hpos
    exact ⟨_, h1, h3⟩

/-- C18 on the empty cache: a failed first load of "a" leaves `GameRunning` false. -/
theorem GameRunning_flag_witness :
    TexturesystemClass.empty.GameRunning = true ∧
      ∃ s2, LoadTexture loaderFail "a" TexturesystemClass.empty = .ok (0, s2) ∧
        s2.GameRunning = false :=
  ⟨rfl,
    (GameRunning_flag loaderFail "a" TexturesystemClass.empty
      (LoadTexture.resolve "a" TexturesystemClass.empty).2 0 TextureHandle.new
      (by decide) rfl (by decide) rfl (by decide) rfl).1⟩

/-! ## `DX8_LoadTexture` and `LoadTextureFromFile` -/

/-- A texture that was created although its size could not be probed: the call succeeds,
sets `instances` to 1 and `GameRunning` to false, and does not touch the scale factors. -/
theorem DX8_LoadTexture_probe (fileExists : Bool) (d : D3DAnswers) (path filename : String)
    (buf : Option Nat) (buf_size : Nat) (th : TextureHandle) (running : Bool) (tex : Nat)
    (hne : filename ≠ "")
    (hmode : (buf_size > 0 ∧ buf ≠ none) ∨ (buf_size = 0 ∧ fileExists = true))
    (hcreate : d.create = .ok tex)
    (hprobe : d.info_ok = false ∨ d.tex_Width = 0 ∨ d.tex_Height = 0 ∨
      d.img_Width = 0 ∨ d.img_Height = 0) :
    DX8_LoadTexture fileExists d path filename buf buf_size th running =
      { success := true
        th := { th with tex := some tex, instances := 1 }
        GameRunning := false } := by
  unfold DX8_LoadTexture
  have h1 : ¬ (decide (buf_size > 0) = true ∧ buf = none) := by
    rcases hmode with ⟨_, hb⟩ | ⟨hz, _⟩
    · exact fun h => hb h.2
    · intro h
      have := h.1
      simp [hz] at this
  have h2 : ¬ (decide (buf_size > 0) = false ∧ fileExists = false) := by
    rcases hmode with ⟨hp, _⟩ | ⟨_, hf⟩
    · intro h
      have := h.1
      simp at this
      omega
    · intro h
      rw [hf] at h
      exact Bool.noConfusion h.2
  simp only [h1, h2, hne, if_false, hcreate, hprobe, if_true]

/-- C16, amended: when `DX8_LoadTexture` has created the texture but the dimension probe
fails or one of the four probed dimensions is 0, the load is not aborted (the function
returns true with `instances = 1` and the new texture) and `npot_scalex` and `npot_scaley`
keep the values the handle had before the call, so they are 1.0 for a handle that still
had its defaults; `GameRunning` is set to false. -/
theorem DX8_LoadTexture_probe_failure (fileExists : Bool) (d : D3DAnswers)
    (path filename : String) (buf : Option Nat) (buf_size : Nat) (th : TextureHandle)
    (running : Bool) (tex : Nat) (hne : filename ≠ "")
    (hmode : (buf_size > 0 ∧ buf ≠ none) ∨ (buf_size = 0 ∧ fileExists = true))
    (hcreate : d.create = .ok tex)
    (hprobe : d.info_ok = false ∨ d.tex_Width = 0 ∨ d.tex_Height = 0 ∨
      d.img_Width = 0 ∨ d.img_Height = 0) :
    (DX8_LoadTexture fileExists d path filename buf buf_size th running).success = true ∧
      (DX8_LoadTexture fileExists d path filename buf buf_size th running).th.instances = 1 ∧
      (DX8_LoadTexture fileExists d path filename buf buf_size th running).th.tex
        = some tex ∧
      (DX8_LoadTexture fileExists d path filename buf buf_size th running).th.npot_scalex
        = th.npot_scalex ∧
      (DX8_LoadTexture fileExists d path filename buf buf_size th running).th.npot_scaley
        = th.npot_scaley ∧
      (th.npot_scalex = 1 → th.npot_scaley = 1 →
        (DX8_LoadTexture fileExists d path filename buf buf_size th running).th.npot_scalex
            = 1 ∧
          (DX8_LoadTexture fileExists d path filename buf buf_size th running).th.npot_scaley
            = 1) ∧
      (DX8_LoadTexture fileExists d path filename buf buf_size th running).GameRunning
        = false := by
  rw [DX8_LoadTexture_probe fileExists d path filename buf buf_size th running tex hne hmode
    hcreate hprobe]
  exact ⟨rfl, rfl, rfl, rfl, rfl, fun h1 h2 => ⟨h1, h2⟩, rfl⟩

/-- C16 as stated fails: a slot that carried the factors 2 and 3 is loaded again from
disk, Direct3D creates the texture and the probe of the image size fails; the call
returns true with `instances = 1`, and the factors are still 2 and 3, not 1.0. -/
theorem DX8_LoadTexture_probe_failure_counterexample :
    usedHandle.instances = 0 ∧ probeFails.create = .ok 9 ∧ probeFails.info_ok = false ∧
      (DX8_LoadTexture true probeFails "./data/textures" "a.png" none 0 usedHandle
        true).success = true ∧
      (DX8_LoadTexture true probeFails "./data/textures" "a.png" none 0 usedHandle
        true).th.instances = 1 ∧
      (DX8_LoadTexture true probeFails "./data/textures" "a.png" none 0 usedHandle
        true).th.npot_scalex = 2 ∧
      (DX8_LoadTexture true probeFails "./data/textures" "a.png" none 0 usedHandle
        true).th.npot_scaley = 3 ∧
      (DX8_LoadTexture true probeFails "./data/textures" "a.png" none 0 usedHandle
        true).th.npot_scalex ≠ 1 ∧
      (DX8_LoadTexture true probeFails "./data/textures" "a.png" none 0 usedHandle
        true).th.npot_scaley ≠ 1 :=
  ⟨rfl, rfl, rfl, by decide, by decide, by decide, by decide, by decide, by decide⟩

/-- C16 (amended) at a new handle and at a used one, loading from disk with a failing
probe: the new handle keeps 1 and 1, the used one keeps 2 and 3. -/
theorem DX8_LoadTexture_probe_failure_witness :
    ((DX8_LoadTexture true probeFails "./data/textures" "a.png" none 0 TextureHandle.new
        true).success = true ∧
      (DX8_LoadTexture true probeFails "./data/textures" "a.png" none 0 TextureHandle.new
        true).th.npot_scalex = 1 ∧
      (DX8_LoadTexture true probeFails "./data/textures" "a.png" none 0 TextureHandle.new
        true).th.npot_scaley = 1) ∧
      (DX8_LoadTexture true probeFails "./data/textures" "a.png" none 0 usedHandle
        true).th.npot_scalex = usedHandle.npot_scalex :=
  have h1 := DX8_LoadTexture_probe_failure true probeFails "./data/textures" "a.png" none 0
    TextureHandle.new true 9 (by decide) (Or.inr ⟨rfl, rfl⟩) rfl (Or.inl rfl)
  have h2 := DX8_LoadTexture_probe_failure true probeFails "./data/textures" "a.png" none 0
    usedHandle true 9 (by decide) (Or.inr ⟨rfl, rfl⟩) rfl (Or.inl rfl)
  ⟨⟨h1.1, (h1.2.2.2.2.2.1 rfl rfl).1, (h1.2.2.2.2.2.1 rfl rfl).2⟩, h2.2.2.2.1⟩

/-- Without a usable archive entry `LoadTextureFromFile` calls the loader once, for the
file on disk, and returns its result. -/
theorem LoadTextureFromFile_disk (w : World) (filename : String) (th : TextureHandle)
    (running : Bool) (hne : filename ≠ "")
    (harch : w.rarExists = false ∨ w.urarlib_get = false ∨ w.buf_data = none) :
    LoadTextureFromFile w filename th running =
      some (LoadTextureFromFile.loaded
        (DX8_LoadTexture w.fileExists w.disk (LoadTextureFromFile.path w) filename none 0
          th running).success
        (DX8_LoadTexture w.fileExists w.disk (LoadTextureFromFile.path w) filename none 0
          th running).th
        (DX8_LoadTexture w.fileExists w.disk (LoadTextureFromFile.path w) filename none 0
          th running).GameRunning
        [.disk]) := by
  have hcond : ¬ (w.rarExists = true ∧ w.urarlib_get = true ∧ w.buf_data ≠ none) := by
    rintro ⟨h1, h2, h3⟩
    rcases harch with h | h | h
    · rw [h] at h1; exact Bool.noConfusion h1
    · rw [h] at h2; exact Bool.noConfusion h2
    · exact h3 h
  unfold LoadTextureFromFile
  simp only [hne, if_false, hcond]

theorem LoadTextureFromFile_empty (w : World) (th : TextureHandle) (running : Bool) :
    LoadTextureFromFile w "" th running =
      some { success := false, th := th, GameRunning := running, loaders := [] } := by
  simp [LoadTextureFromFile]

theorem LoadTextureFromFile_archive (w : World) (filename : String) (th : TextureHandle)
    (running : Bool) (hne : filename ≠ "") (h1 : w.rarExists = true)
    (h2 : w.urarlib_get = true) (h3 : w.buf_data ≠ none) :
    LoadTextureFromFile w filename th running = none := by
  unfold LoadTextureFromFile
  simp only [hne, if_false, h1, h2, h3, stringFromNull, ne_eq, not_false_eq_true, and_self,
    if_true]

theorem DX8_LoadTexture_empty (fileExists : Bool) (d : D3DAnswers) (path : String)
    (buf : Option Nat) (buf_size : Nat) (th : TextureHandle) (running : Bool) :
    (DX8_LoadTexture fileExists d path "" buf buf_size th running).success = false ∧
      (DX8_LoadTexture fileExists d path "" buf buf_size th running).GameRunning = false := by
  unfold DX8_LoadTexture
  by_cases h : decide (buf_size > 0) = true ∧ buf = none
  · simp only [h, and_self, if_true]
  · simp only [h, if_false, if_true, and_self]

/-- C15: with the archive present, the extraction successful and a non-null buffer, the
call of line 227 passes `NULL` for both `const std::string &` parameters of
`DX8_LoadTexture`, so `LoadTextureFromFile` has no defined result for any non-empty name
(here for "a.png"); and `DX8_LoadTexture` rejects an empty file name in every mode, so a
load from memory without a file name could not succeed either. Without a usable archive
entry the loader is called once, for the file on disk, and for the empty name it is not
called and the result is false. -/
theorem LoadTextureFromFile_archive_undefined :
    archiveWorld.rarExists = true ∧ archiveWorld.urarlib_get = true ∧
      archiveWorld.buf_data ≠ none ∧
      LoadTextureFromFile archiveWorld "a.png" TextureHandle.new true = none ∧
      (∀ (w : World) (filename : String) (th : TextureHandle) (running : Bool),
        filename ≠ "" → w.rarExists = true → w.urarlib_get = true → w.buf_data ≠ none →
        LoadTextureFromFile w filename th running = none) ∧
      (∀ (fileExists : Bool) (d : D3DAnswers) (path : String) (buf : Option Nat)
          (buf_size : Nat) (th : TextureHandle) (running : Bool),
        (DX8_LoadTexture fileExists d path "" buf buf_size th running).success = false) ∧
      (∃ r, LoadTextureFromFile diskWorld "a.png" TextureHandle.new true = some r ∧
        r.success = true ∧ r.loaders = [.disk]) ∧
      (∃ r, LoadTextureFromFile archiveWorld "" TextureHandle.new true = some r ∧
        r.success = false ∧ r.loaders = []) :=
  ⟨rfl, rfl, by decide, rfl, LoadTextureFromFile_archive,
    fun fileExists d path buf buf_size th running =>
      (DX8_LoadTexture_empty fileExists d path buf buf_size th running).1,
    ⟨_, rfl, by decide, rfl⟩, ⟨_, rfl, rfl, rfl⟩⟩

/-! ## Reading scale factor files -/

theorem loop_cons_accepted (t : Triple) (rest : List Triple)
    (m : List (String × (Rat × Rat))) (h : t.name ≠ "" ∧ t.xscale ≠ 0 ∧ t.yscale ≠ 0) :
    ReadScaleFactorsFile.loop (t :: rest) m
      = ReadScaleFactorsFile.loop rest (mapSet m t.name (t.xscale, t.yscale)) := by
  rw [ReadScaleFactorsFile.loop, if_pos h]

theorem loop_cons_rejected (t : Triple) (rest : List Triple)
    (m : List (String × (Rat × Rat))) (h : ¬ (t.name ≠ "" ∧ t.xscale ≠ 0 ∧ t.yscale ≠ 0)) :
    ReadScaleFactorsFile.loop (t :: rest) m = ReadScaleFactorsFile.loop rest m := by
  rw [ReadScaleFactorsFile.loop, if_neg h]

theorem lastAccepted_cons_some (name : String) (t : Triple) (rest : List Triple)
    (p : Rat × Rat) (h : lastAccepted name rest = some p) :
    lastAccepted name (t :: rest) = some p := by
  rw [lastAccepted, h]

theorem lastAccepted_cons_none (name : String) (t : Triple) (rest : List Triple)
    (h : lastAccepted name rest = none) :
    lastAccepted name (t :: rest) =
      if t.name = name ∧ t.name ≠ "" ∧ t.xscale ≠ 0 ∧ t.yscale ≠ 0 then
        some (t.xscale, t.yscale)
      else none := by
  rw [lastAccepted, h]

theorem ReadScaleFactorsFile_loop_append (a : List Triple) :
    ∀ (b : List Triple) (m : List (String × (Rat × Rat))),
      ReadScaleFactorsFile.loop (a ++ b) m
        = ReadScaleFactorsFile.loop b (ReadScaleFactorsFile.loop a m) := by
  induction a with
  | nil => intro b m; rfl
  | cons t rest ih =>
      intro b m
      by_cases hacc : t.name ≠ "" ∧ t.xscale ≠ 0 ∧ t.yscale ≠ 0
      · rw [List.cons_append, loop_cons_accepted t _ m hacc, loop_cons_accepted t _ m hacc]
        exact ih b _
      · rw [List.cons_append, loop_cons_rejected t _ m hacc, loop_cons_rejected t _ m hacc]
        exact ih b _

/-- After the loop a name maps to the pair of its last accepted triple, or to what it
mapped to before when the source has no accepted triple for it. -/
theorem ReadScaleFactorsFile_loop_find (l : List Triple) :
    ∀ (m : List (String × (Rat × Rat))) (name : String),
      mapFind (ReadScaleFactorsFile.loop l m) name =
        match lastAccepted name l with
        | some p => some p
        | none => mapFind m name := by
  induction l with
  | nil => intro m name; rfl
  | cons t rest ih =>
      intro m name
      cases hrest : lastAccepted name rest with
      | some p =>
          rw [lastAccepted_cons_some name t rest p hrest]
          by_cases hacc : t.name ≠ "" ∧ t.xscale ≠ 0 ∧ t.yscale ≠ 0
          · rw [loop_cons_accepted t _ m hacc, ih, hrest]
          · rw [loop_cons_rejected t _ m hacc, ih, hrest]
      | none =>
          rw [lastAccepted_cons_none name t rest hrest]
          by_cases hacc : t.name ≠ "" ∧ t.xscale ≠ 0 ∧ t.yscale ≠ 0
          · rw [loop_cons_accepted t _ m hacc, ih, hrest]
            by_cases hn : t.name = name
            · rw [if_pos ⟨hn, hacc⟩]
              subst hn
              exact mapFind_mapSet_same _ _ _
            · rw [if_neg (fun h => hn h.1)]
              exact mapFind_mapSet_other _ _ _ _ (fun h => hn h.symm)
          · rw [loop_cons_rejected t _ m hacc, ih, hrest, if_neg (fun h => hacc h.2)]

theorem lastAccepted_ne_none (name : String) (l : List Triple) :
    lastAccepted name l ≠ none ↔
      ∃ t ∈ l, t.name = name ∧ t.name ≠ "" ∧ t.xscale ≠ 0 ∧ t.yscale ≠ 0 := by
  induction l with
  | nil => simp [lastAccepted]
  | cons t rest ih =>
      cases hrest : lastAccepted name rest with
      | some p =>
          rw [lastAccepted_cons_some name t rest p hrest]
          obtain ⟨u, hu, hp⟩ := ih.mp (by rw [hrest]; exact Option.some_ne_none p)
          exact ⟨fun _ => ⟨u, List.mem_cons_of_mem _ hu, hp⟩,
            fun _ => Option.some_ne_none p⟩
      | none =>
          rw [lastAccepted_cons_none name t rest hrest]
          have h1 : ¬ ∃ t ∈ rest, t.name = name ∧ t.name ≠ "" ∧ t.xscale ≠ 0 ∧ t.yscale ≠ 0 :=
            fun h => (ih.mpr h) hrest
          by_cases hc : t.name = name ∧ t.name ≠ "" ∧ t.xscale ≠ 0 ∧ t.yscale ≠ 0
          · rw [if_pos hc]
            exact ⟨fun _ => ⟨t, List.mem_cons_self _ _, hc⟩, fun _ => Option.some_ne_none _⟩
          · rw [if_neg hc]
            constructor
            · intro h
              exact absurd rfl h
            · rintro ⟨u, hu, hp⟩
              rcases List.mem_cons.mp hu with rfl | hu'
              · exact absurd hp hc
              · exact absurd ⟨u, hu', hp⟩ h1

/-- C14: `ReadScaleFactorsFile` stores a parsed triple exactly when its name is non-empty
and both factors are non-zero: reading a source that ends with the triple `t` gives, when
`t` passes, the map after the earlier triples with `t.name` assigned the pair of `t`,
and, when `t` does not pass, exactly the map after the earlier triples (an earlier entry
for the name included); a source that cannot be opened leaves the cache as it was; and
nothing but `_scalefactors_map` is ever changed. -/
theorem ReadScaleFactorsFile_filter (s : TexturesystemClass) (triples : List Triple)
    (t : Triple) :
    ((t.name ≠ "" ∧ t.xscale ≠ 0 ∧ t.yscale ≠ 0) →
        (ReadScaleFactorsFile (some (triples ++ [t])) s)._scalefactors_map
            = mapSet (ReadScaleFactorsFile (some triples) s)._scalefactors_map
                t.name (t.xscale, t.yscale) ∧
          mapFind (ReadScaleFactorsFile (some (triples ++ [t])) s)._scalefactors_map t.name
            = some (t.xscale, t.yscale)) ∧
      (¬ (t.name ≠ "" ∧ t.xscale ≠ 0 ∧ t.yscale ≠ 0) →
        ReadScaleFactorsFile (some (triples ++ [t])) s
          = ReadScaleFactorsFile (some triples) s) ∧
      ReadScaleFactorsFile none s = s ∧
      (∀ file : Option (List Triple),
        ReadScaleFactorsFile file s
          = { s with _scalefactors_map := (ReadScaleFactorsFile file s)._scalefactors_map }) := by
  refine ⟨?_, ?_, rfl, ?_⟩
  · intro hacc
    have h : (ReadScaleFactorsFile (some (triples ++ [t])) s)._scalefactors_map
        = mapSet (ReadScaleFactorsFile (some triples) s)._scalefactors_map
            t.name (t.xscale, t.yscale) := by
      simp only [ReadScaleFactorsFile]
      rw [ReadScaleFactorsFile_loop_append, loop_cons_accepted t [] _ hacc]
      rfl
    exact ⟨h, by rw [h]; exact mapFind_mapSet_same _ _ _⟩
  · intro hrej
    simp only [ReadScaleFactorsFile]
    rw [ReadScaleFactorsFile_loop_append, loop_cons_rejected t [] _ hrej]
    rfl
  · intro file
    cases file with
    | none => rfl
    | some l => rfl

/-- C14 on a source of three triples read into the empty table: the triple with a zero
factor is dropped and does not disturb the entry read before it. -/
theorem ReadScaleFactorsFile_filter_witness :
    (ReadScaleFactorsFile (some [⟨"X", 2, 4⟩, ⟨"X", 0, 5⟩, ⟨"Y", 3, 3⟩])
        TexturesystemClass.empty)._scalefactors_map = [("X", (2, 4)), ("Y", (3, 3))] ∧
      ReadScaleFactorsFile (some ([⟨"X", 2, 4⟩] ++ [⟨"X", 0, 5⟩])) TexturesystemClass.empty
        = ReadScaleFactorsFile (some [⟨"X", 2, 4⟩]) TexturesystemClass.empty ∧
      mapFind (ReadScaleFactorsFile (some ([⟨"X", 2, 4⟩, ⟨"X", 0, 5⟩] ++ [⟨"Y", 3, 3⟩]))
        TexturesystemClass.empty)._scalefactors_map "Y" = some (3, 3) :=
  ⟨by decide,
    (ReadScaleFactorsFile_filter TexturesystemClass.empty [⟨"X", 2, 4⟩] ⟨"X", 0, 5⟩).2.1
      (by decide),
    ((ReadScaleFactorsFile_filter TexturesystemClass.empty [⟨"X", 2, 4⟩, ⟨"X", 0, 5⟩]
      ⟨"Y", 3, 3⟩).1 (by decide)).2⟩

/-- C13: reading source 1 and then source 2 with `ReadScaleFactorsFile`: a name that
source 2 holds an accepted triple for maps to the pair of the last such triple; every
other name maps to what it mapped to after source 1, which is what it mapped to before
both when source 1 has no accepted triple for it either; no name loses its entry; and
`ReadScaleFactorsFiles` reads the base file and then the `etc1/` file in this way. -/
theorem ReadScaleFactorsFile_merge (s : TexturesystemClass) (source1 source2 : List Triple)
    (name : String) :
    (lastAccepted name source2 ≠ none ↔
        ∃ t ∈ source2, t.name = name ∧ t.name ≠ "" ∧ t.xscale ≠ 0 ∧ t.yscale ≠ 0) ∧
      (∀ p, lastAccepted name source2 = some p →
        mapFind (ReadScaleFactorsFile (some source2)
          (ReadScaleFactorsFile (some source1) s))._scalefactors_map name = some p) ∧
      (lastAccepted name source2 = none →
        mapFind (ReadScaleFactorsFile (some source2)
            (ReadScaleFactorsFile (some source1) s))._scalefactors_map name
          = mapFind (ReadScaleFactorsFile (some source1) s)._scalefactors_map name) ∧
      (lastAccepted name source2 = none → lastAccepted name source1 = none →
        mapFind (ReadScaleFactorsFile (some source2)
            (ReadScaleFactorsFile (some source1) s))._scalefactors_map name
          = mapFind s._scalefactors_map name) ∧
      (mapFind s._scalefactors_map name ≠ none →
        mapFind (ReadScaleFactorsFile (some source2)
          (ReadScaleFactorsFile (some source1) s))._scalefactors_map name ≠ none) ∧
      (∀ (USE_PVRTC : Bool) (pvr : ScaleFile), USE_PVRTC = false ∨ pvr.present = false →
        ReadScaleFactorsFiles true USE_PVRTC
            { present := true, stream := some source1 }
            { present := true, stream := some source2 } pvr s
          = ReadScaleFactorsFile (some source2) (ReadScaleFactorsFile (some source1) s)) := by
  have h2 := ReadScaleFactorsFile_loop_find source2
    (ReadScaleFactorsFile.loop source1 s._scalefactors_map) name
  have h1 := ReadScaleFactorsFile_loop_find source1 s._scalefactors_map name
  refine ⟨lastAccepted_ne_none name source2, ?_, ?_, ?_, ?_, ?_⟩
  · intro p hp
    simp only [ReadScaleFactorsFile]
    rw [h2, hp]
  · intro hp
    simp only [ReadScaleFactorsFile]
    rw [h2, hp]
  · intro hp hq
    simp only [ReadScaleFactorsFile]
    rw [h2, hp]
    simp only []
    rw [h1, hq]
  · intro hm
    simp only [ReadScaleFactorsFile]
    rw [h2]
    cases lastAccepted name source2 with
    | some p => simp
    | none =>
        simp only []
        rw [h1]
        cases lastAccepted name source1 with
        | some q => simp
        | none => exact hm
  · intro USE_PVRTC pvr hp
    rcases hp with hp | hp
    · simp [ReadScaleFactorsFiles, hp]
    · simp [ReadScaleFactorsFiles, hp]

/-- C13 on two sources where source 2 redefines only "X": "X" gets the pair of source 2,
"Y" and "Z" keep the pairs of source 1. -/
theorem ReadScaleFactorsFile_merge_witness :
    mapFind (ReadScaleFactorsFile (some [⟨"X", 5, 6⟩])
        (ReadScaleFactorsFile (some [⟨"X", 1, 2⟩, ⟨"Y", 3, 4⟩, ⟨"Z", 7, 8⟩])
          TexturesystemClass.empty))._scalefactors_map "X" = some (5, 6) ∧
      mapFind (ReadScaleFactorsFile (some [⟨"X", 5, 6⟩])
        (ReadScaleFactorsFile (some [⟨"X", 1, 2⟩, ⟨"Y", 3, 4⟩, ⟨"Z", 7, 8⟩])
          TexturesystemClass.empty))._scalefactors_map "Y"
        = mapFind (ReadScaleFactorsFile (some [⟨"X", 1, 2⟩, ⟨"Y", 3, 4⟩, ⟨"Z", 7, 8⟩])
          TexturesystemClass.empty)._scalefactors_map "Y" ∧
      (ReadScaleFactorsFile (some [⟨"X", 5, 6⟩])
        (ReadScaleFactorsFile (some [⟨"X", 1, 2⟩, ⟨"Y", 3, 4⟩, ⟨"Z", 7, 8⟩])
          TexturesystemClass.empty))._scalefactors_map
        = [("X", (5, 6)), ("Y", (3, 4)), ("Z", (7, 8))] :=
  ⟨(ReadScaleFactorsFile_merge TexturesystemClass.empty
      [⟨"X", 1, 2⟩, ⟨"Y", 3, 4⟩, ⟨"Z", 7, 8⟩] [⟨"X", 5, 6⟩] "X").2.1 (5, 6) (by decide),
    (ReadScaleFactorsFile_merge TexturesystemClass.empty
      [⟨"X", 1, 2⟩, ⟨"Y", 3, 4⟩, ⟨"Z", 7, 8⟩] [⟨"X", 5, 6⟩] "Y").2.2.1 (by decide),
    by decide⟩

end Hurrican
